import Mathlib

/-!
Shallow embedding of the Demurrage Tracker repository (mobile client and
backend tracking service), together with theorems settling the testable
properties of its specification.

Conventions of the embedding:
* timestamps are naturals, in milliseconds since the Unix epoch
  (JavaScript `Date.now()`); the epoch day (1970-01-01) is a Thursday;
* the mobile client's duration arithmetic (`differenceInMinutes` from
  date-fns) truncates to whole minutes, so client durations are naturals;
  the backend computes `EXTRACT(EPOCH FROM (NOW() - start_time)) / 60`,
  a fractional number of minutes, so backend durations are rationals;
* JavaScript string ids are modelled as naturals;
* the key-value stores (the client's web `Map`s / SQLite tables and the
  backend's SQL tables) are modelled as lists of records keyed by id.
-/

namespace DemurrageTracker

/-! ## Time model and `dateUtils` -/

def MS_PER_MINUTE : ℕ := 60000

def DAY_MS : ℕ := 86400000

def WEEK_MS : ℕ := 604800000

/-- `startOfWeek(date, \x7b weekStartsOn: 0 \x7d)` from `dateUtils.getWeekStart`:
the most recent Sunday midnight at or before `t`.  Day 0 of the epoch is a
Thursday, so the Sundays are exactly the times `w` with
`(w + 4 * DAY_MS) % WEEK_MS = 0`. -/
def weekStart (t : ℕ) : ℕ := t - (t + 4 * DAY_MS) % WEEK_MS

/-- A timestamp that is itself a Sunday midnight (a valid `week_start_date`). -/
def IsWeekStart (w : ℕ) : Prop := (w + 4 * DAY_MS) % WEEK_MS = 0

instance (w : ℕ) : Decidable (IsWeekStart w) := by
  unfold IsWeekStart; infer_instance

/-- `dateUtils.calculateDurationMinutes`: `differenceInMinutes` truncates the
millisecond difference to whole minutes. -/
def calculateDurationMinutes (startTime endTime : ℕ) : ℕ :=
  (endTime - startTime) / MS_PER_MINUTE

/-- `dateUtils.isDemurrageEvent`: strict comparison against the threshold. -/
def isDemurrageEvent (durationMinutes thresholdMinutes : ℕ) : Bool :=
  durationMinutes > thresholdMinutes

/-! ## Mobile client: data model (`src/types`, `src/services/database.ts`) -/

namespace Client

structure Location where
  latitude : ℚ
  longitude : ℚ
deriving DecidableEq, Repr

/-- `AppSettings` as stored by the client (`src/services/database.ts`). -/
structure AppSettings where
  recipientEmail : String
  demurrageThresholdMinutes : ℕ
  autoSendInvoice : Bool
  trackingEnabled : Bool
  biometricEnabled : Bool
  hourlyRate : ℚ
  companyName : String
  companyAddress : String
deriving DecidableEq, Repr

/-- `DEFAULT_SETTINGS` from `src/services/database.ts` (threshold is 1, per the
source comment "Changed to 1 min for testing (default: 50)"). -/
def DEFAULT_SETTINGS : AppSettings where
  recipientEmail := ""
  demurrageThresholdMinutes := 1
  autoSendInvoice := true
  trackingEnabled := true
  biometricEnabled := false
  hourlyRate := 0
  companyName := ""
  companyAddress := ""

/-- The threshold expression `settings?.demurrageThresholdMinutes || 50` used in
`tracking.ts`: the fallback 50 is taken when there are no settings or the stored
threshold is falsy (0). -/
def resolveThreshold (settings : Option AppSettings) : ℕ :=
  match settings with
  | none => 50
  | some s => if s.demurrageThresholdMinutes = 0 then 50 else s.demurrageThresholdMinutes

inductive StopReason
  | plant_breakdown
  | site_issue
  | trailer_issue
  | curfew
  | truck_queue
  | other
deriving DecidableEq, Repr

/-- The client's `StopEvent` record (fields as created in
`tracking.ts.startStopEvent`); `weekStartDate` is the week tag stored as an
ISO date string in the source, modelled by the week-start timestamp. -/
structure StopEvent where
  id : ℕ
  startTime : ℕ
  endTime : Option ℕ
  startLocation : Location
  endLocation : Option Location
  durationMinutes : ℕ
  isDemurrage : Bool
  weekStartDate : ℕ
  synced : Bool
  reason : Option StopReason
  notes : Option String
  photos : Option (List String)
deriving DecidableEq, Repr

structure WeeklyDemurrage where
  id : ℕ
  weekStartDate : ℕ
  weekEndDate : ℕ
  totalDemurrageMinutes : ℕ
  eventCount : ℕ
  invoiceGenerated : Bool
  invoiceSent : Bool
  invoicePath : Option String
deriving DecidableEq, Repr

/-- A stored invoice row (web store shape; contents irrelevant to the claims). -/
structure InvoiceRow where
  id : ℕ
  weeklyDemurrageId : ℕ
  generatedAt : ℕ
  sentAt : Option ℕ
deriving DecidableEq, Repr

/-- The stored settings blob: absent, present, or undecryptable with the
current key (in the source, `decrypt` then throws and `getSettings` rejects). -/
inductive SettingsSlot
  | empty
  | corrupted
  | stored (settings : AppSettings)
deriving DecidableEq, Repr

/-- The client's local store (web `Map`s / SQLite tables of `database.ts`).
Row order in the source only affects result ordering (`ORDER BY created_at`),
never which rows an operation touches, so rows are kept in insertion order. -/
structure ClientDB where
  stopEvents : List StopEvent
  weeklyDemurrage : List WeeklyDemurrage
  invoices : List InvoiceRow
  settingsSlot : SettingsSlot
deriving DecidableEq, Repr

/-- `database.getSettings`: `.error` models the rejected promise thrown by
`decrypt` on a corrupted blob. -/
def getSettings (db : ClientDB) : Except Unit (Option AppSettings) :=
  match db.settingsSlot with
  | .empty => .ok none
  | .corrupted => .error ()
  | .stored s => .ok (some s)

def saveSettings (db : ClientDB) (settings : AppSettings) : ClientDB :=
  { db with settingsSlot := .stored settings }

/-- `database.saveStopEvent`: `INSERT OR REPLACE` keyed by `id`
(web: `Map.set`). -/
def saveStopEvent (db : ClientDB) (event : StopEvent) : ClientDB :=
  if db.stopEvents.any (fun e => e.id == event.id) then
    { db with stopEvents := db.stopEvents.map (fun e => if e.id == event.id then event else e) }
  else
    { db with stopEvents := db.stopEvents ++ [event] }

/-- `database.updateStopEvent`: update the row with matching `id`; a no-op when
no such row exists. -/
def updateStopEvent (db : ClientDB) (event : StopEvent) : ClientDB :=
  { db with stopEvents := db.stopEvents.map (fun e => if e.id == event.id then event else e) }

/-- `database.getDemurrageEventsByWeek`: rows whose stored week tag matches and
whose demurrage flag is set. -/
def getDemurrageEventsByWeek (db : ClientDB) (weekStartDate : ℕ) : List StopEvent :=
  db.stopEvents.filter (fun e => e.weekStartDate == weekStartDate && e.isDemurrage)

/-- `database.getOrCreateWeeklyDemurrage`; `freshId` stands for
`generateSecureId()`. -/
def getOrCreateWeeklyDemurrage (db : ClientDB) (weekStartDate freshId : ℕ) :
    WeeklyDemurrage × ClientDB :=
  match db.weeklyDemurrage.find? (fun r => r.weekStartDate == weekStartDate) with
  | some r => (r, db)
  | none =>
    let r : WeeklyDemurrage :=
      { id := freshId, weekStartDate := weekStartDate
        weekEndDate := weekStartDate + 6 * DAY_MS
        totalDemurrageMinutes := 0, eventCount := 0
        invoiceGenerated := false, invoiceSent := false, invoicePath := none }
    (r, { db with weeklyDemurrage := db.weeklyDemurrage ++ [r] })

/-- `database.updateWeeklyDemurrage`: updates the totals of the record with the
given week tag; silently a no-op when no record for that week exists (web:
`if (existing)`; native: SQL `UPDATE` matching no row). -/
def updateWeeklyDemurrage (db : ClientDB) (weekStartDate totalMinutes eventCount : ℕ) :
    ClientDB :=
  { db with weeklyDemurrage := db.weeklyDemurrage.map (fun r =>
      if r.weekStartDate == weekStartDate then
        { r with totalDemurrageMinutes := totalMinutes, eventCount := eventCount }
      else r) }

/-- `database.recalculateWeeklyDemurrage`: full re-scan-and-sum of the week's
demurrage events. -/
def recalculateWeeklyDemurrage (db : ClientDB) (weekStartDate freshId : ℕ) :
    WeeklyDemurrage × ClientDB :=
  let events := getDemurrageEventsByWeek db weekStartDate
  let totalMinutes := (events.map (fun e => e.durationMinutes)).sum
  let db1 := updateWeeklyDemurrage db weekStartDate totalMinutes events.length
  getOrCreateWeeklyDemurrage db1 weekStartDate freshId

/-- `database.initializeDatabase`, settings part.  Reading corrupted settings is
caught: on web the stop events, weekly records and invoices are cleared as
well, and in all cases the defaults are persisted. -/
def initializeDatabase (isWeb : Bool) (db : ClientDB) : ClientDB :=
  match getSettings db with
  | .ok none => saveSettings db DEFAULT_SETTINGS
  | .ok (some _) => db
  | .error _ =>
    let db1 :=
      if isWeb then
        { db with settingsSlot := .empty, stopEvents := [], weeklyDemurrage := [], invoices := [] }
      else db
    saveSettings db1 DEFAULT_SETTINGS

/-! ## Mobile client: tracking coordinator (`src/services/tracking.ts`) -/

/-- The coordinator's module state: the store plus the in-memory
`currentStopEvent`. -/
structure TrackingState where
  db : ClientDB
  currentStopEvent : Option StopEvent
deriving DecidableEq, Repr

/-- `tracking.startStopEvent`.  `location` is `getCurrentLocation()` (possibly
null); a failing `getSettings` is caught and leaves the state unchanged;
`freshEventId` stands for `generateSecureId()`. -/
def startStopEvent (st : TrackingState) (freshEventId freshWeeklyId now : ℕ)
    (location : Option Location) (pendingReason : Option StopReason) : TrackingState :=
  match getSettings st.db with
  | .error _ => st
  | .ok _ =>
    let event : StopEvent :=
      { id := freshEventId, startTime := now, endTime := none
        startLocation := location.getD { latitude := 0, longitude := 0 }
        endLocation := none, durationMinutes := 0, isDemurrage := false
        weekStartDate := weekStart now, synced := false
        reason := pendingReason, notes := none, photos := none }
    let db1 := saveStopEvent st.db event
    let db2 := (getOrCreateWeeklyDemurrage db1 (weekStart now) freshWeeklyId).2
    { db := db2, currentStopEvent := some event }

/-- `tracking.endStopEvent`: close the current event at `now`, classify it
against `settings?.demurrageThresholdMinutes || 50`, persist it, and
recalculate the weekly aggregate exactly when it is demurrage. -/
def endStopEvent (st : TrackingState) (freshWeeklyId now : ℕ)
    (location : Option Location) : TrackingState :=
  match st.currentStopEvent with
  | none => st
  | some cur =>
    match getSettings st.db with
    | .error _ => st
    | .ok settings =>
      let thresholdMinutes := resolveThreshold settings
      let durationMinutes := calculateDurationMinutes cur.startTime now
      let event := { cur with
        endTime := some now, endLocation := location
        durationMinutes := durationMinutes
        isDemurrage := isDemurrageEvent durationMinutes thresholdMinutes }
      let db1 := updateStopEvent st.db event
      let db2 :=
        if event.isDemurrage then
          (recalculateWeeklyDemurrage db1 event.weekStartDate freshWeeklyId).2
        else db1
      { db := db2, currentStopEvent := none }

/-- `tracking.updateCurrentStopDuration` (the 60s refresh timer): refresh the
open event's duration and flag; the event stays open. -/
def updateCurrentStopDuration (st : TrackingState) (freshWeeklyId now : ℕ) : TrackingState :=
  match st.currentStopEvent with
  | none => st
  | some cur =>
    match getSettings st.db with
    | .error _ => st
    | .ok settings =>
      let thresholdMinutes := resolveThreshold settings
      let durationMinutes := calculateDurationMinutes cur.startTime now
      let event := { cur with
        durationMinutes := durationMinutes
        isDemurrage := isDemurrageEvent durationMinutes thresholdMinutes }
      let db1 := updateStopEvent st.db event
      let db2 :=
        if event.isDemurrage then
          (recalculateWeeklyDemurrage db1 event.weekStartDate freshWeeklyId).2
        else db1
      { db := db2, currentStopEvent := some event }

/-- `tracking.handleMotionChange`: open a stop event on a transition to stopped
with no current event; close the current event on a transition to moving. -/
def handleMotionChange (st : TrackingState) (isMoving : Bool)
    (freshEventId freshWeeklyId now : ℕ) (location : Option Location)
    (pendingReason : Option StopReason) : TrackingState :=
  if isMoving = false ∧ st.currentStopEvent = none then
    startStopEvent st freshEventId freshWeeklyId now location pendingReason
  else if isMoving = true ∧ st.currentStopEvent ≠ none then
    endStopEvent st freshWeeklyId now location
  else st

/-- `tracking.updateCurrentStopPhotosNotes`: replace the current event's photos
and notes and persist it; a no-op without a current event. -/
def updateCurrentStopPhotosNotes (st : TrackingState) (photos : List String)
    (notes : String) : TrackingState :=
  match st.currentStopEvent with
  | none => st
  | some cur =>
    let event := { cur with photos := some photos, notes := some notes }
    { db := updateStopEvent st.db event, currentStopEvent := some event }

/-- Result shape of `tracking.getCurrentStopDemurrageStatus`. -/
structure DemurrageStatus where
  isActive : Bool
  durationMinutes : ℕ
  isDemurrage : Bool
  minutesUntilDemurrage : ℕ
deriving DecidableEq, Repr

/-- `tracking.getCurrentStopDemurrageStatus`: hard-codes the 50-minute
threshold and reads no settings; `Math.max(0, 50 - d)` is truncated
subtraction on naturals. -/
def getCurrentStopDemurrageStatus (st : TrackingState) (now : ℕ) : DemurrageStatus :=
  match st.currentStopEvent with
  | none =>
    { isActive := false, durationMinutes := 0, isDemurrage := false
      minutesUntilDemurrage := 50 }
  | some cur =>
    let durationMinutes := calculateDurationMinutes cur.startTime now
    { isActive := true, durationMinutes := durationMinutes
      isDemurrage := durationMinutes > 50
      minutesUntilDemurrage := 50 - durationMinutes }

/-- One externally triggered client operation on the coordinator. -/
inductive ClientOp
  | motion (isMoving : Bool) (freshEventId freshWeeklyId now : ℕ)
      (location : Option Location) (reason : Option StopReason)
  | refresh (freshWeeklyId now : ℕ)
  | photosNotes (photos : List String) (notes : String)

def applyOp (st : TrackingState) : ClientOp → TrackingState
  | .motion m e w now loc r => handleMotionChange st m e w now loc r
  | .refresh w now => updateCurrentStopDuration st w now
  | .photosNotes p n => updateCurrentStopPhotosNotes st p n

def runClient (ops : List ClientOp) (st : TrackingState) : TrackingState :=
  ops.foldl applyOp st

/-- A fresh client state: empty store, no current stop event. -/
def emptyState (slot : SettingsSlot) : TrackingState :=
  { db := { stopEvents := [], weeklyDemurrage := [], invoices := [], settingsSlot := slot }
    currentStopEvent := none }

/-- The store's open stop events (`endTime = null`). -/
def openEvents (db : ClientDB) : List StopEvent :=
  db.stopEvents.filter (fun e => e.endTime == none)

/-- Coordinator invariant: stored ids are distinct, and the open stored events
are exactly mirrored by the in-memory `currentStopEvent`. -/
def ClientInv (st : TrackingState) : Prop :=
  st.db.stopEvents.Pairwise (fun a b => a.id ≠ b.id) ∧
  (st.currentStopEvent = none → ∀ e ∈ st.db.stopEvents, e.endTime ≠ none) ∧
  (∀ cur, st.currentStopEvent = some cur → cur.endTime = none ∧
    ∀ e ∈ st.db.stopEvents, e.endTime = none → e.id = cur.id)

end Client

/-! ## Backend tracking service (`backend/src/services/tracking.service.ts`) -/

namespace Backend

structure Location where
  latitude : ℚ
  longitude : ℚ
  address : Option String
deriving DecidableEq, Repr

/-- A row of the backend `stop_events` table. -/
structure StopEventRow where
  id : ℕ
  companyId : ℕ
  userId : ℕ
  sessionId : ℕ
  truckRego : Option String
  trailerRego : Option String
  startTime : ℕ
  endTime : Option ℕ
  startLatitude : ℚ
  startLongitude : ℚ
  startAddress : Option String
  endLatitude : Option ℚ
  endLongitude : Option ℚ
  endAddress : Option String
  durationMinutes : Option ℚ
  isDemurrage : Bool
  reason : Option String
  notes : Option String
  photos : Option (List String)
deriving DecidableEq, Repr

/-- A row of the backend `weekly_demurrage` table.  `totalMinutes` is stored
rounded (`Math.round`) by `updateWeeklyDemurrage`. -/
structure WeeklyRow where
  id : ℕ
  companyId : ℕ
  weekStartDate : ℕ
  weekEndDate : ℕ
  totalMinutes : ℤ
  eventCount : ℕ
  invoiceGenerated : Bool
  invoiceSent : Bool
  invoicePath : Option String
deriving DecidableEq, Repr

/-- The backend relational store; the counters model the database generating a
fresh primary key for each inserted row. -/
structure BackendDB where
  stopEvents : List StopEventRow
  weeklyDemurrage : List WeeklyRow
  nextEventId : ℕ
  nextWeeklyId : ℕ
deriving DecidableEq, Repr

def emptyBackendDB : BackendDB :=
  { stopEvents := [], weeklyDemurrage := [], nextEventId := 0, nextWeeklyId := 0 }

/-- JavaScript `Math.round` (round half toward positive infinity). -/
def jsRound (x : ℚ) : ℤ := ⌊x + 1 / 2⌋

/-- `tracking.service.createStopEvent`: unconditional `INSERT` of an open row. -/
def createStopEvent (db : BackendDB) (companyId userId sessionId : ℕ)
    (startLocation : Location) (truckRego trailerRego : Option String)
    (reason : Option String) (now : ℕ) : StopEventRow × BackendDB :=
  let row : StopEventRow :=
    { id := db.nextEventId, companyId := companyId, userId := userId
      sessionId := sessionId, truckRego := truckRego, trailerRego := trailerRego
      startTime := now, endTime := none
      startLatitude := startLocation.latitude, startLongitude := startLocation.longitude
      startAddress := startLocation.address
      endLatitude := none, endLongitude := none, endAddress := none
      durationMinutes := none, isDemurrage := false
      reason := reason, notes := none, photos := none }
  (row, { db with stopEvents := db.stopEvents ++ [row], nextEventId := db.nextEventId + 1 })

/-- `tracking.service.getDemurrageEventsByWeek`: demurrage rows of the company
whose `start_time` lies in `[weekStart, weekStart + 7 days)`. -/
def getDemurrageEventsByWeek (db : BackendDB) (companyId weekStartDate : ℕ) :
    List StopEventRow :=
  db.stopEvents.filter (fun r =>
    r.companyId == companyId && r.isDemurrage
      && decide (weekStartDate ≤ r.startTime)
      && decide (r.startTime < weekStartDate + 7 * DAY_MS))

/-- `tracking.service.getOrCreateWeeklyDemurrage`. -/
def getOrCreateWeeklyDemurrage (db : BackendDB) (companyId date : ℕ) :
    WeeklyRow × BackendDB :=
  let weekStartDate := weekStart date
  match db.weeklyDemurrage.find? (fun r =>
      r.companyId == companyId && r.weekStartDate == weekStartDate) with
  | some r => (r, db)
  | none =>
    let r : WeeklyRow :=
      { id := db.nextWeeklyId, companyId := companyId
        weekStartDate := weekStartDate, weekEndDate := weekStartDate + 6 * DAY_MS
        totalMinutes := 0, eventCount := 0
        invoiceGenerated := false, invoiceSent := false, invoicePath := none }
    (r, { db with weeklyDemurrage := db.weeklyDemurrage ++ [r],
                  nextWeeklyId := db.nextWeeklyId + 1 })

/-- `tracking.service.updateWeeklyDemurrage`: re-scan the week's demurrage
events and store `Math.round` of their summed (fractional) durations. -/
def updateWeeklyDemurrage (db : BackendDB) (companyId eventDate : ℕ) : BackendDB :=
  let wd := getOrCreateWeeklyDemurrage db companyId eventDate
  let weekly := wd.1
  let db1 := wd.2
  let events := getDemurrageEventsByWeek db1 companyId weekly.weekStartDate
  let totalMinutes : ℚ := (events.map (fun e => e.durationMinutes.getD 0)).sum
  { db1 with weeklyDemurrage := db1.weeklyDemurrage.map (fun r =>
      if r.id == weekly.id then
        { r with totalMinutes := jsRound totalMinutes, eventCount := events.length }
      else r) }

/-- The `SET` clause of `tracking.service.endStopEvent` applied to one row:
stores the fractional duration `EXTRACT(EPOCH FROM (NOW() - start_time)) / 60`
and sets `is_demurrage = duration >= threshold` (non-strict). -/
def closeRow (endLocation : Location) (demurrageThresholdMinutes : ℚ) (now : ℕ)
    (r : StopEventRow) : StopEventRow :=
  let durationMinutes : ℚ := ((now : ℚ) - (r.startTime : ℚ)) / 60000
  { r with
    endTime := some now
    endLatitude := some endLocation.latitude
    endLongitude := some endLocation.longitude
    endAddress := endLocation.address
    durationMinutes := some durationMinutes
    isDemurrage := durationMinutes ≥ demurrageThresholdMinutes }

def endStopEvent (db : BackendDB) (eventId : ℕ) (endLocation : Location)
    (demurrageThresholdMinutes : ℚ) (now : ℕ) : Option StopEventRow × BackendDB :=
  match db.stopEvents.find? (fun r => r.id == eventId) with
  | none => (none, db)
  | some row =>
    let row2 := closeRow endLocation demurrageThresholdMinutes now row
    let db1 := { db with stopEvents := db.stopEvents.map (fun r =>
      if r.id == eventId then closeRow endLocation demurrageThresholdMinutes now r else r) }
    let db2 :=
      if row2.isDemurrage then updateWeeklyDemurrage db1 row.companyId row.startTime
      else db1
    (some row2, db2)

/-- The `SET` clause of `tracking.service.updateStopEventDetails`,
`notes = COALESCE($2, notes), photos = COALESCE($3, photos)`, applied to one
row. -/
def patchRow (notes : Option String) (photos : Option (List String))
    (r : StopEventRow) : StopEventRow :=
  { r with
    notes := match notes with | some n => some n | none => r.notes
    photos := match photos with | some p => some p | none => r.photos }

def updateStopEventDetails (db : BackendDB) (eventId : ℕ) (notes : Option String)
    (photos : Option (List String)) : Option StopEventRow × BackendDB :=
  match db.stopEvents.find? (fun r => r.id == eventId) with
  | none => (none, db)
  | some row =>
    (some (patchRow notes photos row), { db with stopEvents := db.stopEvents.map (fun r =>
      if r.id == eventId then patchRow notes photos r else r) })

/-- `tracking.service.getActiveStopEvent`: the user's most recent open row. -/
def getActiveStopEvent (db : BackendDB) (userId : ℕ) : Option StopEventRow :=
  (db.stopEvents.filter (fun r => r.userId == userId && r.endTime == none)).head?

/-- An active user session as returned by `session.service.getActiveSession`
(a row of `user_sessions` with `ended_at IS NULL`); the sessions table is not
touched by any tracking operation, so the lookup result is passed to the route
as an input. -/
structure UserSession where
  id : ℕ
  truckRego : Option String
  trailerRego : Option String
deriving DecidableEq, Repr

/-- The `POST /api/tracking/start` handler from the backend tracking routes:
it refuses (no state change) when the body carries no location, when
`getActiveStopEvent` finds a stop event already in progress for the user, or
when the user has no active session; otherwise it inserts via
`createStopEvent`, tagging the row with the session's id and vehicle regos. -/
def startTrackingRoute (db : BackendDB) (companyId userId : ℕ)
    (location : Option Location) (session : Option UserSession)
    (reason : Option String) (now : ℕ) : Option StopEventRow × BackendDB :=
  match location with
  | none => (none, db)
  | some loc =>
    match getActiveStopEvent db userId with
    | some _ => (none, db)
    | none =>
      match session with
      | none => (none, db)
      | some s =>
        let rd := createStopEvent db companyId userId s.id loc
          s.truckRego s.trailerRego reason now
        (some rd.1, rd.2)

/-- One request handled by the backend tracking API.  Stop events are opened
through the `/start` route handler; closings and detail updates are modelled
at the service level (`endStopEvent`, `updateStopEventDetails`), of which the
`/end` and `PATCH /:eventId` routes call special cases. -/
inductive BackendOp
  | start (companyId userId : ℕ) (location : Option Location)
      (session : Option UserSession) (reason : Option String) (now : ℕ)
  | stop (eventId : ℕ) (endLocation : Location) (threshold : ℚ) (now : ℕ)
  | details (eventId : ℕ) (notes : Option String) (photos : Option (List String))

def applyBackendOp (db : BackendDB) : BackendOp → BackendDB
  | .start c u loc sess r now => (startTrackingRoute db c u loc sess r now).2
  | .stop e loc th now => (endStopEvent db e loc th now).2
  | .details e n p => (updateStopEventDetails db e n p).2

def runBackend (ops : List BackendOp) (db : BackendDB) : BackendDB :=
  ops.foldl applyBackendOp db

/-- The open stop events (`end_time IS NULL`) of a given user. -/
def openEventsFor (db : BackendDB) (userId : ℕ) : List StopEventRow :=
  db.stopEvents.filter (fun r => r.userId == userId && r.endTime == none)

end Backend

/-! ## Motion classifier (`src/services/motion.ts`)

Sensor readings are modelled as timestamped samples carrying the acceleration
deviation and the GPS speed handed to `processMotionData`; the cancellable
`setTimeout` confirmations are modelled as deadlines in the state together
with explicit timer-firing events (a `setTimeout` callback runs at or after
its deadline, and only if it has not been cleared). -/

namespace Motion

def MOTION_THRESHOLD : ℚ := 15 / 100

def SPEED_THRESHOLD : ℚ := 3 / 2

def STOP_CONFIRMATION_TIME : ℕ := 10000

def MOVEMENT_CONFIRMATION_TIME : ℕ := 5000

def BUFFER_SIZE : ℕ := 10

/-- `addToBuffer`: push the value, dropping the oldest sample beyond
`BUFFER_SIZE`. -/
def addToBuffer (buffer : List ℚ) (value : ℚ) : List ℚ :=
  let b := buffer ++ [value]
  if BUFFER_SIZE < b.length then b.tail else b

/-- The trailing average `buffer.reduce((a, b) => a + b, 0) / buffer.length`
over exactly the samples the buffer holds. -/
def bufferAverage (buffer : List ℚ) : ℚ := buffer.sum / buffer.length

inductive Pending
  | stopped
  | moving
deriving DecidableEq, Repr

/-- The classifier's mutable module state: `currentState` plus the smoothing
buffers, the pending transition, and the two confirmation timers. -/
structure MotionSt where
  isMoving : Bool
  speed : ℚ
  accelerationBuffer : List ℚ
  speedBuffer : List ℚ
  pending : Option Pending
  stopDeadline : Option ℕ
  movementDeadline : Option ℕ
deriving DecidableEq, Repr

/-- Initial state: "Assume moving initially", empty buffers, no timers. -/
def initialMotionSt : MotionSt :=
  { isMoving := true, speed := 0, accelerationBuffer := [], speedBuffer := []
    pending := none, stopDeadline := none, movementDeadline := none }

inductive MEvent
  | sample (time : ℕ) (acceleration speed : ℚ)
  | fireStop (time : ℕ)
  | fireMove (time : ℕ)
deriving DecidableEq, Repr

/-- Observable history: the raw smoothed decision of each processed sample,
and each accepted state flip. -/
inductive LogEntry
  | sample (time : ℕ) (moving : Bool)
  | flip (time : ℕ) (isMoving : Bool)
deriving DecidableEq, Repr

/-- `processMotionData`: smooth both signals, decide `moving` by
acceleration OR speed exceeding its threshold, and arm/cancel the
confirmation timers; the sample itself never flips `isMoving`. -/
def processMotionData (s : MotionSt) (time : ℕ) (acceleration speed : ℚ) :
    MotionSt × LogEntry :=
  let accBuf := addToBuffer s.accelerationBuffer acceleration
  let spdBuf := addToBuffer s.speedBuffer speed
  let avgAcceleration := bufferAverage accBuf
  let avgSpeed := bufferAverage spdBuf
  let wasMoving := s.isMoving
  let isCurrentlyMoving : Bool :=
    decide (avgAcceleration > MOTION_THRESHOLD) || decide (avgSpeed > SPEED_THRESHOLD)
  let s0 := { s with accelerationBuffer := accBuf, speedBuffer := spdBuf, speed := avgSpeed }
  let s1 :=
    if wasMoving && !isCurrentlyMoving then
      if s0.pending = some Pending.stopped then s0
      else { s0 with pending := some Pending.stopped, movementDeadline := none
                     stopDeadline := some (time + STOP_CONFIRMATION_TIME) }
    else if !wasMoving && isCurrentlyMoving then
      if s0.pending = some Pending.moving then s0
      else { s0 with pending := some Pending.moving, stopDeadline := none
                     movementDeadline := some (time + MOVEMENT_CONFIRMATION_TIME) }
    else if wasMoving && isCurrentlyMoving then
      { s0 with stopDeadline := none, pending := none }
    else
      { s0 with movementDeadline := none, pending := none }
  (s1, .sample time isCurrentlyMoving)

/-- The stop-confirmation `setTimeout` callback firing at `time`: effective
only once its deadline has passed and it has not been cleared, and it flips
the state only if the pending transition is still `stopped`. -/
def fireStopTimer (s : MotionSt) (time : ℕ) : MotionSt × Option LogEntry :=
  match s.stopDeadline with
  | none => (s, none)
  | some d =>
    if d ≤ time then
      if s.pending = some Pending.stopped then
        ({ s with stopDeadline := none, isMoving := false, pending := none },
          some (.flip time false))
      else ({ s with stopDeadline := none }, none)
    else (s, none)

/-- The movement-confirmation `setTimeout` callback firing at `time`. -/
def fireMoveTimer (s : MotionSt) (time : ℕ) : MotionSt × Option LogEntry :=
  match s.movementDeadline with
  | none => (s, none)
  | some d =>
    if d ≤ time then
      if s.pending = some Pending.moving then
        ({ s with movementDeadline := none, isMoving := true, pending := none },
          some (.flip time true))
      else ({ s with movementDeadline := none }, none)
    else (s, none)

def stepMotion (s : MotionSt) : MEvent → MotionSt × Option LogEntry
  | .sample t a v =>
    let r := processMotionData s t a v
    (r.1, some r.2)
  | .fireStop t => fireStopTimer s t
  | .fireMove t => fireMoveTimer s t

def runMotion (events : List MEvent) : MotionSt × List LogEntry :=
  events.foldl (fun acc e =>
    let r := stepMotion acc.1 e
    (r.1, acc.2 ++ r.2.toList)) (initialMotionSt, [])

/-- A logged sample whose smoothed decision was "not moving". -/
def SampleStopped (en : LogEntry) : Prop := ∃ t, en = .sample t false

/-- A logged sample whose smoothed decision was "moving". -/
def SampleMoving (en : LogEntry) : Prop := ∃ t, en = .sample t true

/-- The acceleration values fed to the classifier, in order. -/
def accInputs (events : List MEvent) : List ℚ :=
  events.filterMap (fun e => match e with
    | .sample _ a _ => some a
    | _ => none)

/-- The speed values fed to the classifier, in order. -/
def speedInputs (events : List MEvent) : List ℚ :=
  events.filterMap (fun e => match e with
    | .sample _ _ v => some v
    | _ => none)

/-- The trailing window: the last at-most-`n` elements of a list. -/
def lastN (n : ℕ) (l : List ℚ) : List ℚ := l.drop (l.length - n)

/-- While a stop confirmation is pending, its deadline was armed by a
below-threshold sample logged `STOP_CONFIRMATION_TIME` before the deadline,
and every sample logged since then also decided below-threshold. -/
def PendingStoppedInv (log : List LogEntry) (s : MotionSt) : Prop :=
  s.isMoving = true ∧ s.movementDeadline = none ∧
  ∃ t0 l1 l2, s.stopDeadline = some (t0 + STOP_CONFIRMATION_TIME) ∧
    log = l1 ++ LogEntry.sample t0 false :: l2 ∧ ∀ en ∈ l2, SampleStopped en

/-- Symmetric invariant for a pending movement confirmation. -/
def PendingMovingInv (log : List LogEntry) (s : MotionSt) : Prop :=
  s.isMoving = false ∧ s.stopDeadline = none ∧
  ∃ t0 l1 l2, s.movementDeadline = some (t0 + MOVEMENT_CONFIRMATION_TIME) ∧
    log = l1 ++ LogEntry.sample t0 true :: l2 ∧ ∀ en ∈ l2, SampleMoving en

/-- The classifier's debounce invariant: pending transitions carry their
confirmation window, and with no pending transition both timers are clear. -/
def MotionInv (log : List LogEntry) (s : MotionSt) : Prop :=
  (s.pending = some Pending.stopped → PendingStoppedInv log s) ∧
  (s.pending = some Pending.moving → PendingMovingInv log s) ∧
  (s.pending = none → s.stopDeadline = none ∧ s.movementDeadline = none)

end Motion

/-! ## Frame relations: agreement on all fields except notes and photos -/

namespace Client

/-- Two client stop events agreeing on every field other than `notes` and
`photos`. -/
def SameCoreEvent (e e2 : StopEvent) : Prop :=
  e2.id = e.id ∧ e2.startTime = e.startTime ∧ e2.endTime = e.endTime ∧
  e2.startLocation = e.startLocation ∧ e2.endLocation = e.endLocation ∧
  e2.durationMinutes = e.durationMinutes ∧ e2.isDemurrage = e.isDemurrage ∧
  e2.weekStartDate = e.weekStartDate ∧ e2.synced = e.synced ∧ e2.reason = e.reason

end Client

namespace Backend

/-- Two backend stop-event rows agreeing on every column other than `notes`
and `photos`. -/
def SameCoreRow (r r2 : StopEventRow) : Prop :=
  r2.id = r.id ∧ r2.companyId = r.companyId ∧ r2.userId = r.userId ∧
  r2.sessionId = r.sessionId ∧ r2.truckRego = r.truckRego ∧
  r2.trailerRego = r.trailerRego ∧ r2.startTime = r.startTime ∧
  r2.endTime = r.endTime ∧ r2.startLatitude = r.startLatitude ∧
  r2.startLongitude = r.startLongitude ∧ r2.startAddress = r.startAddress ∧
  r2.endLatitude = r.endLatitude ∧ r2.endLongitude = r.endLongitude ∧
  r2.endAddress = r.endAddress ∧ r2.durationMinutes = r.durationMinutes ∧
  r2.isDemurrage = r.isDemurrage ∧ r2.reason = r.reason

end Backend

/-! ## Shared test fixtures -/

/-- An open stop event started at the Sunday-midnight timestamp
`3 * DAY_MS` (1970-01-04). -/
def sampleOpenStopEvent : Client.StopEvent where
  id := 0
  startTime := 259200000
  endTime := none
  startLocation := { latitude := 0, longitude := 0 }
  endLocation := none
  durationMinutes := 0
  isDemurrage := false
  weekStartDate := 259200000
  synced := false
  reason := none
  notes := none
  photos := none

/-- A client state holding `sampleOpenStopEvent` as its current stop event. -/
def sampleTrackingState (slot : Client.SettingsSlot) : Client.TrackingState where
  db :=
    { stopEvents := [sampleOpenStopEvent], weeklyDemurrage := []
      invoices := [], settingsSlot := slot }
  currentStopEvent := some sampleOpenStopEvent

/-- An open backend stop-event row started at the Sunday-midnight timestamp
`3 * DAY_MS`. -/
def sampleBackendRow : Backend.StopEventRow where
  id := 0
  companyId := 1
  userId := 2
  sessionId := 3
  truckRego := none
  trailerRego := none
  startTime := 259200000
  endTime := none
  startLatitude := 0
  startLongitude := 0
  startAddress := none
  endLatitude := none
  endLongitude := none
  endAddress := none
  durationMinutes := none
  isDemurrage := false
  reason := none
  notes := none
  photos := none

/-- A backend store holding the single open row `sampleBackendRow`. -/
def sampleBackendDB : Backend.BackendDB where
  stopEvents := [sampleBackendRow]
  weeklyDemurrage := []
  nextEventId := 1
  nextWeeklyId := 0

/-- `sampleOpenStopEvent` closed after 51 minutes and flagged as demurrage. -/
def sampleClosedDemurrageEvent : Client.StopEvent :=
  { sampleOpenStopEvent with
    endTime := some 262260000, durationMinutes := 51, isDemurrage := true }

/-- A client store holding one closed demurrage event of week `3 * DAY_MS` and
no weekly record at all. -/
def sampleMissingWeeklyDB : Client.ClientDB where
  stopEvents := [sampleClosedDemurrageEvent]
  weeklyDemurrage := []
  invoices := []
  settingsSlot := Client.SettingsSlot.empty

/-- A pre-existing client weekly record for the week `3 * DAY_MS`. -/
def sampleWeeklyRecord : Client.WeeklyDemurrage where
  id := 5
  weekStartDate := 259200000
  weekEndDate := 0
  totalDemurrageMinutes := 0
  eventCount := 0
  invoiceGenerated := false
  invoiceSent := false
  invoicePath := none

/-- A client store holding one closed demurrage event and the weekly record of
its week. -/
def sampleWeeklyDB : Client.ClientDB where
  stopEvents := [sampleClosedDemurrageEvent]
  weeklyDemurrage := [sampleWeeklyRecord]
  invoices := []
  settingsSlot := Client.SettingsSlot.empty

/-- A pre-existing backend weekly row for company 1 and week `3 * DAY_MS`. -/
def sampleBackendWeeklyRow : Backend.WeeklyRow where
  id := 3
  companyId := 1
  weekStartDate := 259200000
  weekEndDate := 0
  totalMinutes := 7
  eventCount := 2
  invoiceGenerated := false
  invoiceSent := false
  invoicePath := none

/-- A backend store with no stop events and one stale weekly row. -/
def sampleBackendWeeklyDB : Backend.BackendDB where
  stopEvents := []
  weeklyDemurrage := [sampleBackendWeeklyRow]
  nextEventId := 0
  nextWeeklyId := 9

/-- `sampleWeeklyRecord` after recalculation over `sampleWeeklyDB`. -/
def sampleWeeklyRecordUpdated : Client.WeeklyDemurrage :=
  { sampleWeeklyRecord with totalDemurrageMinutes := 51, eventCount := 1 }

/-- `sampleBackendWeeklyRow` after recalculation over the event-free
`sampleBackendWeeklyDB`. -/
def sampleBackendWeeklyRowUpdated : Backend.WeeklyRow :=
  { sampleBackendWeeklyRow with totalMinutes := 0, eventCount := 0 }

/-! ## Theorems -/

theorem isWeekStart_weekStart_eq (w : ℕ) (hw : IsWeekStart w) : weekStart w = w := by
  unfold weekStart
  unfold IsWeekStart at hw
  omega

/-- Characterisation of the week tag: for a valid week start `w`, a timestamp
`t` carries tag `w` exactly when `t` lies in the half-open week
`[w, w + WEEK_MS)`. -/
theorem weekStart_eq_iff (w t : ℕ) (hw : IsWeekStart w) :
    weekStart t = w ↔ w ≤ t ∧ t < w + WEEK_MS := by
  unfold weekStart
  unfold IsWeekStart at hw
  simp only [show WEEK_MS = 604800000 from rfl, show DAY_MS = 86400000 from rfl] at hw ⊢
  omega

namespace Client

theorem getOrCreateWeeklyDemurrage_stopEvents (db : ClientDB) (w i : ℕ) :
    (getOrCreateWeeklyDemurrage db w i).2.stopEvents = db.stopEvents := by
  unfold getOrCreateWeeklyDemurrage
  split <;> rfl

theorem getOrCreateWeeklyDemurrage_settingsSlot (db : ClientDB) (w i : ℕ) :
    (getOrCreateWeeklyDemurrage db w i).2.settingsSlot = db.settingsSlot := by
  unfold getOrCreateWeeklyDemurrage
  split <;> rfl

theorem recalculateWeeklyDemurrage_stopEvents (db : ClientDB) (w i : ℕ) :
    (recalculateWeeklyDemurrage db w i).2.stopEvents = db.stopEvents := by
  unfold recalculateWeeklyDemurrage
  rw [getOrCreateWeeklyDemurrage_stopEvents]
  rfl

theorem recalculateWeeklyDemurrage_settingsSlot (db : ClientDB) (w i : ℕ) :
    (recalculateWeeklyDemurrage db w i).2.settingsSlot = db.settingsSlot := by
  unfold recalculateWeeklyDemurrage
  rw [getOrCreateWeeklyDemurrage_settingsSlot]
  rfl

theorem endStopEvent_closes (st : TrackingState) (cur : StopEvent)
    (s : Option AppSettings) (freshWeeklyId now : ℕ) (location : Option Location)
    (hcur : st.currentStopEvent = some cur)
    (hset : getSettings st.db = Except.ok s) :
    (endStopEvent st freshWeeklyId now location).currentStopEvent = none ∧
    (endStopEvent st freshWeeklyId now location).db.stopEvents
      = (updateStopEvent st.db { cur with
          endTime := some now, endLocation := location,
          durationMinutes := calculateDurationMinutes cur.startTime now,
          isDemurrage := isDemurrageEvent (calculateDurationMinutes cur.startTime now)
            (resolveThreshold s) }).stopEvents := by
  unfold endStopEvent
  rw [hcur, hset]
  constructor
  · rfl
  · simp only []
    split
    · exact recalculateWeeklyDemurrage_stopEvents ..
    · rfl

end Client

/-- Claim C7: the 50-minute default threshold is hard-coded independently of
the company-configurable value: for every tracking state and configured
settings value, `getCurrentStopDemurrageStatus` reports
`isDemurrage = (duration > 50)` and `minutesUntilDemurrage = max(0, 50 − duration)`
without consulting the configured `demurrageThresholdMinutes` (changing the
stored settings does not change its result), and `endStopEvent` classifies
against the fallback threshold 50 when no settings value is available. -/
theorem hardcoded_fifty_minute_threshold (st : Client.TrackingState)
    (now freshWeeklyId : ℕ) (location : Option Client.Location)
    (settings : Client.AppSettings) (cur : Client.StopEvent)
    (hcur : st.currentStopEvent = some cur)
    (hslot : st.db.settingsSlot = Client.SettingsSlot.empty) :
    (Client.getCurrentStopDemurrageStatus st now).isDemurrage
        = decide ((Client.getCurrentStopDemurrageStatus st now).durationMinutes > 50) ∧
    (Client.getCurrentStopDemurrageStatus st now).minutesUntilDemurrage
        = 50 - (Client.getCurrentStopDemurrageStatus st now).durationMinutes ∧
    Client.getCurrentStopDemurrageStatus
        { st with db := Client.saveSettings st.db settings } now
      = Client.getCurrentStopDemurrageStatus st now ∧
    Client.resolveThreshold none = 50 ∧
    (Client.endStopEvent st freshWeeklyId now location).db.stopEvents
      = (Client.updateStopEvent st.db { cur with
          endTime := some now, endLocation := location,
          durationMinutes := calculateDurationMinutes cur.startTime now,
          isDemurrage := isDemurrageEvent (calculateDurationMinutes cur.startTime now) 50 }).stopEvents := by
  refine ⟨?_, ?_, ?_, rfl, ?_⟩
  · simp [Client.getCurrentStopDemurrageStatus, hcur]
  · simp [Client.getCurrentStopDemurrageStatus, hcur]
  · rfl
  · exact (Client.endStopEvent_closes st cur none freshWeeklyId now location hcur
      (by rw [Client.getSettings, hslot])).2

/-- Claim C7 witness at a concrete state: with an open stop of 51 elapsed
minutes and no stored settings. -/
theorem hardcoded_fifty_minute_threshold_witness :
    (Client.getCurrentStopDemurrageStatus
        (sampleTrackingState Client.SettingsSlot.empty) 262260000).isDemurrage
      = decide ((Client.getCurrentStopDemurrageStatus
        (sampleTrackingState Client.SettingsSlot.empty) 262260000).durationMinutes > 50) ∧
    Client.resolveThreshold none = 50 :=
  ⟨(hardcoded_fifty_minute_threshold (sampleTrackingState Client.SettingsSlot.empty)
      262260000 1 none Client.DEFAULT_SETTINGS sampleOpenStopEvent rfl rfl).1,
   (hardcoded_fifty_minute_threshold (sampleTrackingState Client.SettingsSlot.empty)
      262260000 1 none Client.DEFAULT_SETTINGS sampleOpenStopEvent rfl rfl).2.2.2.1⟩

/-- Claim C8: on a fresh install (no stored settings) `initializeDatabase`
persists `DEFAULT_SETTINGS`, whose `demurrageThresholdMinutes` is 1, not 50;
with those settings `endStopEvent` flags every stop strictly longer than one
minute; and the 50-minute fallback of `settings?.demurrageThresholdMinutes || 50`
is taken exactly when `getSettings` yields null or a falsy (0) threshold. -/
theorem default_settings_threshold_one (isWeb : Bool) (db : Client.ClientDB)
    (st : Client.TrackingState) (cur : Client.StopEvent) (freshWeeklyId now : ℕ)
    (location : Option Client.Location) (s : Client.AppSettings)
    (hdb : db.settingsSlot = Client.SettingsSlot.empty)
    (hcur : st.currentStopEvent = some cur)
    (hst : st.db.settingsSlot = Client.SettingsSlot.stored Client.DEFAULT_SETTINGS)
    (hs : s.demurrageThresholdMinutes ≠ 0) :
    Client.DEFAULT_SETTINGS.demurrageThresholdMinutes = 1 ∧
    (Client.initializeDatabase isWeb db).settingsSlot
        = Client.SettingsSlot.stored Client.DEFAULT_SETTINGS ∧
    (Client.endStopEvent st freshWeeklyId now location).db.stopEvents
      = (Client.updateStopEvent st.db { cur with
          endTime := some now, endLocation := location,
          durationMinutes := calculateDurationMinutes cur.startTime now,
          isDemurrage := isDemurrageEvent (calculateDurationMinutes cur.startTime now) 1 }).stopEvents ∧
    Client.resolveThreshold none = 50 ∧
    (∀ s0 : Client.AppSettings, s0.demurrageThresholdMinutes = 0 →
      Client.resolveThreshold (some s0) = 50) ∧
    Client.resolveThreshold (some s) = s.demurrageThresholdMinutes := by
  refine ⟨rfl, ?_, ?_, rfl, ?_, ?_⟩
  · rw [Client.initializeDatabase]
    simp only [Client.getSettings, hdb]
    rfl
  · exact (Client.endStopEvent_closes st cur (some Client.DEFAULT_SETTINGS)
      freshWeeklyId now location hcur (by rw [Client.getSettings, hst])).2
  · intro s0 h0
    simp [Client.resolveThreshold, h0]
  · simp [Client.resolveThreshold, hs]

/-- Claim C8 witness: fresh install yields threshold-1 settings, under which a
51-minute stop is flagged. -/
theorem default_settings_threshold_one_witness :
    Client.DEFAULT_SETTINGS.demurrageThresholdMinutes = 1 ∧
    (Client.initializeDatabase true
        { stopEvents := [], weeklyDemurrage := [], invoices := []
          settingsSlot := Client.SettingsSlot.empty }).settingsSlot
      = Client.SettingsSlot.stored Client.DEFAULT_SETTINGS :=
  ⟨(default_settings_threshold_one true
      { stopEvents := [], weeklyDemurrage := [], invoices := []
        settingsSlot := Client.SettingsSlot.empty }
      (sampleTrackingState (Client.SettingsSlot.stored Client.DEFAULT_SETTINGS))
      sampleOpenStopEvent 1 262260000 none Client.DEFAULT_SETTINGS
      rfl rfl rfl (by decide)).1,
   (default_settings_threshold_one true
      { stopEvents := [], weeklyDemurrage := [], invoices := []
        settingsSlot := Client.SettingsSlot.empty }
      (sampleTrackingState (Client.SettingsSlot.stored Client.DEFAULT_SETTINGS))
      sampleOpenStopEvent 1 262260000 none Client.DEFAULT_SETTINGS
      rfl rfl rfl (by decide)).2.1⟩

/-- Claim C10: when reading stored settings fails during `initializeDatabase`
(e.g. an undecryptable blob), the error is not propagated: the corrupted data
is wiped (on web the stop events, weekly records and invoices as well) and the
default settings are persisted, so that `getSettings` afterwards returns the
defaults. -/
theorem initialize_database_reset_on_corruption (isWeb : Bool) (db : Client.ClientDB)
    (h : db.settingsSlot = Client.SettingsSlot.corrupted) :
    (Client.initializeDatabase isWeb db).settingsSlot
        = Client.SettingsSlot.stored Client.DEFAULT_SETTINGS ∧
    Client.getSettings (Client.initializeDatabase isWeb db)
        = Except.ok (some Client.DEFAULT_SETTINGS) ∧
    (isWeb = true →
      (Client.initializeDatabase isWeb db).stopEvents = [] ∧
      (Client.initializeDatabase isWeb db).weeklyDemurrage = [] ∧
      (Client.initializeDatabase isWeb db).invoices = []) ∧
    (isWeb = false →
      (Client.initializeDatabase isWeb db).stopEvents = db.stopEvents ∧
      (Client.initializeDatabase isWeb db).weeklyDemurrage = db.weeklyDemurrage ∧
      (Client.initializeDatabase isWeb db).invoices = db.invoices) := by
  have hs : Client.getSettings db = Except.error () := by rw [Client.getSettings, h]
  unfold Client.initializeDatabase
  rw [hs]
  cases isWeb <;> simp [Client.saveSettings, Client.getSettings]

/-- Claim C10 witness: a web store with an undecryptable settings blob is
wiped and reset to the defaults. -/
theorem initialize_database_reset_on_corruption_witness :
    (Client.initializeDatabase true
        { stopEvents := [sampleOpenStopEvent], weeklyDemurrage := []
          invoices := [], settingsSlot := Client.SettingsSlot.corrupted }).settingsSlot
      = Client.SettingsSlot.stored Client.DEFAULT_SETTINGS ∧
    (true = true →
      (Client.initializeDatabase true
        { stopEvents := [sampleOpenStopEvent], weeklyDemurrage := []
          invoices := [], settingsSlot := Client.SettingsSlot.corrupted }).stopEvents = [] ∧
      (Client.initializeDatabase true
        { stopEvents := [sampleOpenStopEvent], weeklyDemurrage := []
          invoices := [], settingsSlot := Client.SettingsSlot.corrupted }).weeklyDemurrage = [] ∧
      (Client.initializeDatabase true
        { stopEvents := [sampleOpenStopEvent], weeklyDemurrage := []
          invoices := [], settingsSlot := Client.SettingsSlot.corrupted }).invoices = []) :=
  ⟨(initialize_database_reset_on_corruption true
      { stopEvents := [sampleOpenStopEvent], weeklyDemurrage := []
        invoices := [], settingsSlot := Client.SettingsSlot.corrupted } rfl).1,
   (initialize_database_reset_on_corruption true
      { stopEvents := [sampleOpenStopEvent], weeklyDemurrage := []
        invoices := [], settingsSlot := Client.SettingsSlot.corrupted } rfl).2.2.1⟩

theorem forall2_map_of_mem {α : Type} (R : α → α → Prop) (g : α → α) (l : List α)
    (h : ∀ e ∈ l, R e (g e)) : List.Forall₂ R l (l.map g) := by
  induction l with
  | nil => simp
  | cons a tl ih =>
    simp only [List.map_cons]
    exact List.Forall₂.cons (h a (List.mem_cons_self a tl))
      (ih fun e he => h e (List.mem_cons_of_mem a he))

theorem eq_of_mem_of_pairwise_id {l : List Client.StopEvent}
    (huniq : l.Pairwise (fun a b => a.id ≠ b.id)) {a b : Client.StopEvent}
    (ha : a ∈ l) (hb : b ∈ l) (hid : a.id = b.id) : a = b := by
  induction l with
  | nil => cases ha
  | cons c tl ih =>
    rcases List.pairwise_cons.mp huniq with ⟨hc, htl⟩
    rcases List.mem_cons.mp ha with ha1 | ha2
    · rcases List.mem_cons.mp hb with hb1 | hb2
      · rw [ha1, hb1]
      · exact absurd (ha1 ▸ hid) (hc b hb2)
    · rcases List.mem_cons.mp hb with hb1 | hb2
      · exact absurd (hb1 ▸ hid).symm (hc a ha2)
      · exact ih htl ha2 hb2

/-- Claim C9: the only update operations applicable to a stored stop event —
`updateStopEventDetails` on the backend and `updateCurrentStopPhotosNotes` on
the client — change at most the `notes` and `photos` fields; every other field
of every stored row is unchanged. -/
theorem closed_event_update_frame (db : Backend.BackendDB) (eventId : ℕ)
    (notes : Option String) (photos : Option (List String))
    (st : Client.TrackingState) (cur : Client.StopEvent) (p : List String) (n : String)
    (hcur : st.currentStopEvent = some cur)
    (hmem : cur ∈ st.db.stopEvents)
    (huniq : st.db.stopEvents.Pairwise (fun a b => a.id ≠ b.id)) :
    List.Forall₂ Backend.SameCoreRow db.stopEvents
      (Backend.updateStopEventDetails db eventId notes photos).2.stopEvents ∧
    (∀ r2, (Backend.updateStopEventDetails db eventId notes photos).1 = some r2 →
      ∃ r ∈ db.stopEvents, Backend.SameCoreRow r r2) ∧
    List.Forall₂ Client.SameCoreEvent st.db.stopEvents
      (Client.updateCurrentStopPhotosNotes st p n).db.stopEvents ∧
    (Client.updateCurrentStopPhotosNotes st p n).currentStopEvent
      = some { cur with photos := some p, notes := some n } := by
  have hpatch : ∀ r, Backend.SameCoreRow r (Backend.patchRow notes photos r) := by
    intro r
    refine ⟨rfl, rfl, rfl, rfl, rfl, rfl, rfl, rfl, rfl, rfl, rfl, rfl, rfl, rfl, rfl, rfl, rfl⟩
  refine ⟨?_, ?_, ?_, ?_⟩
  · unfold Backend.updateStopEventDetails
    cases hfind : db.stopEvents.find? (fun r => r.id == eventId) with
    | none =>
      simp only [hfind]
      exact (List.forall₂_same).mpr fun r _ =>
        ⟨rfl, rfl, rfl, rfl, rfl, rfl, rfl, rfl, rfl, rfl, rfl, rfl, rfl, rfl, rfl, rfl, rfl⟩
    | some row =>
      simp only [hfind]
      refine forall2_map_of_mem _ _ _ fun r _ => ?_
      by_cases hid : (r.id == eventId) = true
      · simp only [hid, if_true]
        exact hpatch r
      · simp only [hid, if_false]
        exact ⟨rfl, rfl, rfl, rfl, rfl, rfl, rfl, rfl, rfl, rfl, rfl, rfl, rfl, rfl, rfl, rfl, rfl⟩
  · intro r2 hr2
    unfold Backend.updateStopEventDetails at hr2
    cases hfind : db.stopEvents.find? (fun r => r.id == eventId) with
    | none => rw [hfind] at hr2; cases hr2
    | some row =>
      rw [hfind] at hr2
      simp only [Option.some.injEq] at hr2
      exact ⟨row, List.mem_of_find?_eq_some hfind, hr2 ▸ hpatch row⟩
  · unfold Client.updateCurrentStopPhotosNotes
    rw [hcur]
    simp only [Client.updateStopEvent]
    refine forall2_map_of_mem _ _ _ fun e he => ?_
    by_cases hid : (e.id == cur.id) = true
    · have : e = cur := eq_of_mem_of_pairwise_id huniq he hmem (by simpa using hid)
      subst this
      simp only [hid, if_true]
      exact ⟨rfl, rfl, rfl, rfl, rfl, rfl, rfl, rfl, rfl, rfl⟩
    · simp only [hid, if_false]
      exact ⟨rfl, rfl, rfl, rfl, rfl, rfl, rfl, rfl, rfl, rfl⟩
  · unfold Client.updateCurrentStopPhotosNotes
    rw [hcur]

/-- Claim C9 witness at a concrete store. -/
theorem closed_event_update_frame_witness :
    List.Forall₂ Backend.SameCoreRow sampleBackendDB.stopEvents
      (Backend.updateStopEventDetails sampleBackendDB 0 (some "note") none).2.stopEvents ∧
    (Client.updateCurrentStopPhotosNotes
        (sampleTrackingState Client.SettingsSlot.empty) [] "n").currentStopEvent
      = some { sampleOpenStopEvent with photos := some [], notes := some "n" } :=
  ⟨(closed_event_update_frame sampleBackendDB 0 (some "note") none
      (sampleTrackingState Client.SettingsSlot.empty) sampleOpenStopEvent [] "n"
      rfl (by simp [sampleTrackingState]) (by simp [sampleTrackingState])).1,
   (closed_event_update_frame sampleBackendDB 0 (some "note") none
      (sampleTrackingState Client.SettingsSlot.empty) sampleOpenStopEvent [] "n"
      rfl (by simp [sampleTrackingState]) (by simp [sampleTrackingState])).2.2.2⟩

/-- Claim C1 counterexample: the backend `endStopEvent` flags an event whose
duration exactly equals the threshold (50 minutes elapsed, threshold 50):
`is_demurrage` is computed with `>=`, not `>`, so the claimed strict-iff fails
on the backend. -/
theorem backend_threshold_equality_flagged_counterexample :
    ((Backend.endStopEvent sampleBackendDB 0
        { latitude := 0, longitude := 0, address := none } 50 262200000).1.map
      (fun r => (r.durationMinutes, r.isDemurrage))) = some (some 50, true) ∧
    ¬ ((50 : ℚ) > 50) := by
  constructor
  · have hdur : (((262200000 : ℕ) : ℚ) - ((259200000 : ℕ) : ℚ)) / 60000 = 50 := by
      norm_num
    simp only [Backend.endStopEvent, sampleBackendDB, sampleBackendRow, Backend.closeRow,
      List.find?]
    norm_num
  · norm_num

/-- Claim C1 as amended: for every closed stop event the client classification
(`isDemurrageEvent`, used by the client `endStopEvent`) is the strict
comparison `duration > threshold`, while the backend `endStopEvent`
classification is the non-strict comparison `duration >= threshold` (an event
whose duration exactly equals the threshold is flagged by the backend but not
by the client). -/
theorem demurrage_flag_comparisons (d t : ℕ) (db : Backend.BackendDB) (eventId : ℕ)
    (loc : Backend.Location) (thr : ℚ) (now : ℕ)
    (st : Client.TrackingState) (cur : Client.StopEvent) (s : Option Client.AppSettings)
    (freshWeeklyId now2 : ℕ) (location : Option Client.Location)
    (hcur : st.currentStopEvent = some cur)
    (hset : Client.getSettings st.db = Except.ok s) :
    isDemurrageEvent d t = decide (d > t) ∧
    (∀ r2, (Backend.endStopEvent db eventId loc thr now).1 = some r2 →
      r2.isDemurrage = decide (r2.durationMinutes.getD 0 ≥ thr)) ∧
    (Client.endStopEvent st freshWeeklyId now2 location).db.stopEvents
      = (Client.updateStopEvent st.db { cur with
          endTime := some now2, endLocation := location,
          durationMinutes := calculateDurationMinutes cur.startTime now2,
          isDemurrage := isDemurrageEvent (calculateDurationMinutes cur.startTime now2)
            (Client.resolveThreshold s) }).stopEvents := by
  refine ⟨rfl, ?_, ?_⟩
  · intro r2 h
    unfold Backend.endStopEvent at h
    cases hfind : db.stopEvents.find? (fun r => r.id == eventId) with
    | none => rw [hfind] at h; cases h
    | some row =>
      rw [hfind] at h
      simp only [Option.some.injEq] at h
      rw [← h]
      rfl
  · exact (Client.endStopEvent_closes st cur s freshWeeklyId now2 location hcur hset).2

/-- Claim C1 witness: a 51-minute stop against a 50-minute threshold is
flagged by the client classification. -/
theorem demurrage_flag_comparisons_witness :
    isDemurrageEvent 51 50 = decide (51 > 50) ∧
    (Client.endStopEvent (sampleTrackingState Client.SettingsSlot.empty) 1 262260000
        none).db.stopEvents
      = (Client.updateStopEvent (sampleTrackingState Client.SettingsSlot.empty).db
          { sampleOpenStopEvent with
            endTime := some 262260000, endLocation := none,
            durationMinutes := calculateDurationMinutes sampleOpenStopEvent.startTime 262260000,
            isDemurrage := isDemurrageEvent
              (calculateDurationMinutes sampleOpenStopEvent.startTime 262260000)
              (Client.resolveThreshold none) }).stopEvents :=
  ⟨(demurrage_flag_comparisons 51 50 sampleBackendDB 0
      { latitude := 0, longitude := 0, address := none } 50 262200000
      (sampleTrackingState Client.SettingsSlot.empty) sampleOpenStopEvent none
      1 262260000 none rfl rfl).1,
   (demurrage_flag_comparisons 51 50 sampleBackendDB 0
      { latitude := 0, longitude := 0, address := none } 50 262200000
      (sampleTrackingState Client.SettingsSlot.empty) sampleOpenStopEvent none
      1 262260000 none rfl rfl).2.2⟩

namespace Client

theorem endStopEvent_weekly (st : TrackingState) (cur : StopEvent)
    (s : Option AppSettings) (freshWeeklyId now : ℕ) (location : Option Location)
    (hcur : st.currentStopEvent = some cur)
    (hset : getSettings st.db = Except.ok s) :
    (endStopEvent st freshWeeklyId now location).db.weeklyDemurrage
      = if isDemurrageEvent (calculateDurationMinutes cur.startTime now)
            (resolveThreshold s) = true
        then (recalculateWeeklyDemurrage (updateStopEvent st.db { cur with
                endTime := some now, endLocation := location,
                durationMinutes := calculateDurationMinutes cur.startTime now,
                isDemurrage := isDemurrageEvent (calculateDurationMinutes cur.startTime now)
                  (resolveThreshold s) })
              cur.weekStartDate freshWeeklyId).2.weeklyDemurrage
        else st.db.weeklyDemurrage := by
  unfold endStopEvent
  rw [hcur, hset]
  cases hflag : isDemurrageEvent (calculateDurationMinutes cur.startTime now)
      (resolveThreshold s) with
  | false => simp only [hflag, if_false, Bool.false_eq_true]; rfl
  | true => simp only [hflag, if_true]

end Client

/-- Claim C5: on a transition to Moving with an open stop event, the
coordinator closes the event with duration equal to the elapsed minutes from
its start to now, sets the demurrage flag by comparing that duration to the
company's configured threshold, persists the updated event, and recalculates
the weekly aggregate exactly when the closed event is demurrage. -/
theorem coordinator_close_on_moving (st : Client.TrackingState) (cur : Client.StopEvent)
    (s0 : Client.AppSettings) (freshEventId freshWeeklyId now : ℕ)
    (location : Option Client.Location) (reason : Option Client.StopReason)
    (hcur : st.currentStopEvent = some cur)
    (hset : Client.getSettings st.db = Except.ok (some s0))
    (hthr : s0.demurrageThresholdMinutes ≠ 0) :
    Client.handleMotionChange st true freshEventId freshWeeklyId now location reason
      = Client.endStopEvent st freshWeeklyId now location ∧
    (Client.endStopEvent st freshWeeklyId now location).currentStopEvent = none ∧
    (Client.endStopEvent st freshWeeklyId now location).db.stopEvents
      = (Client.updateStopEvent st.db { cur with
          endTime := some now, endLocation := location,
          durationMinutes := calculateDurationMinutes cur.startTime now,
          isDemurrage := isDemurrageEvent (calculateDurationMinutes cur.startTime now)
            s0.demurrageThresholdMinutes }).stopEvents ∧
    (Client.endStopEvent st freshWeeklyId now location).db.weeklyDemurrage
      = (if isDemurrageEvent (calculateDurationMinutes cur.startTime now)
            s0.demurrageThresholdMinutes = true
         then (Client.recalculateWeeklyDemurrage (Client.updateStopEvent st.db { cur with
                  endTime := some now, endLocation := location,
                  durationMinutes := calculateDurationMinutes cur.startTime now,
                  isDemurrage := isDemurrageEvent (calculateDurationMinutes cur.startTime now)
                    s0.demurrageThresholdMinutes })
                cur.weekStartDate freshWeeklyId).2.weeklyDemurrage
         else st.db.weeklyDemurrage) := by
  have hrt : Client.resolveThreshold (some s0) = s0.demurrageThresholdMinutes := by
    simp [Client.resolveThreshold, hthr]
  refine ⟨?_, ?_, ?_, ?_⟩
  · unfold Client.handleMotionChange
    rw [if_neg (by simp), if_pos (by simp [hcur])]
  · exact (Client.endStopEvent_closes st cur (some s0) freshWeeklyId now location hcur hset).1
  · rw [← hrt]
    exact (Client.endStopEvent_closes st cur (some s0) freshWeeklyId now location hcur hset).2
  · rw [← hrt]
    exact Client.endStopEvent_weekly st cur (some s0) freshWeeklyId now location hcur hset

/-- Claim C5 witness: closing a 51-minute stop under the stored default
settings hands back an empty current event and the persisted closed event. -/
theorem coordinator_close_on_moving_witness :
    Client.handleMotionChange
        (sampleTrackingState (Client.SettingsSlot.stored Client.DEFAULT_SETTINGS))
        true 9 1 262260000 none none
      = Client.endStopEvent
          (sampleTrackingState (Client.SettingsSlot.stored Client.DEFAULT_SETTINGS))
          1 262260000 none ∧
    (Client.endStopEvent
        (sampleTrackingState (Client.SettingsSlot.stored Client.DEFAULT_SETTINGS))
        1 262260000 none).currentStopEvent = none :=
  ⟨(coordinator_close_on_moving
      (sampleTrackingState (Client.SettingsSlot.stored Client.DEFAULT_SETTINGS))
      sampleOpenStopEvent Client.DEFAULT_SETTINGS 9 1 262260000 none none
      rfl rfl (by decide)).1,
   (coordinator_close_on_moving
      (sampleTrackingState (Client.SettingsSlot.stored Client.DEFAULT_SETTINGS))
      sampleOpenStopEvent Client.DEFAULT_SETTINGS 9 1 262260000 none none
      rfl rfl (by decide)).2.1⟩

/-- Claim C2 counterexample: when no weekly record exists for the week,
the client `recalculateWeeklyDemurrage` silently drops the computed totals
(`updateWeeklyDemurrage` is a no-op) and `getOrCreateWeeklyDemurrage` then
creates a zero record, although the store holds a 51-minute demurrage event of
that week. -/
theorem recalculate_missing_weekly_record_counterexample :
    ((Client.getDemurrageEventsByWeek sampleMissingWeeklyDB 259200000).map
      (fun e => e.durationMinutes)).sum = 51 ∧
    (Client.recalculateWeeklyDemurrage sampleMissingWeeklyDB 259200000 7).1.totalDemurrageMinutes
      = 0 ∧
    (Client.recalculateWeeklyDemurrage sampleMissingWeeklyDB 259200000 7).1.eventCount = 0 ∧
    (Client.recalculateWeeklyDemurrage
        sampleMissingWeeklyDB 259200000 7).2.weeklyDemurrage.map
      (fun r => r.totalDemurrageMinutes) = [0] ∧
    (51 : ℕ) ≠ 0 := by
  refine ⟨by decide, by decide, by decide, by decide, by decide⟩

theorem eq_of_mem_of_pairwise_rel {α : Type} {R : α → α → Prop} {l : List α}
    (hp : l.Pairwise R) {a b : α} (ha : a ∈ l) (hb : b ∈ l)
    (hab : ¬ R a b) (hba : ¬ R b a) : a = b := by
  induction l with
  | nil => cases ha
  | cons c tl ih =>
    rcases List.pairwise_cons.mp hp with ⟨hc, htl⟩
    rcases List.mem_cons.mp ha with ha1 | ha2
    · rcases List.mem_cons.mp hb with hb1 | hb2
      · rw [ha1, hb1]
      · exact absurd (ha1 ▸ hc b hb2) hab
    · rcases List.mem_cons.mp hb with hb1 | hb2
      · exact absurd (hb1 ▸ hc a ha2) hba
      · exact ih htl ha2 hb2

namespace Backend

theorem getOrCreateWeekly_keeps_stopEvents (db : BackendDB) (c d : ℕ) :
    (getOrCreateWeeklyDemurrage db c d).2.stopEvents = db.stopEvents := by
  unfold getOrCreateWeeklyDemurrage
  cases hfind : List.find?
      (fun r => r.companyId == c && r.weekStartDate == weekStart d) db.weeklyDemurrage <;>
    simp [hfind]

end Backend

/-- Claim C2 as amended: provided a weekly record for the week already exists
(otherwise the client recalculation silently stores nothing and creates a
fresh zero record instead), after the client `recalculateWeeklyDemurrage` the
record's totals are exactly the sum and the count over the demurrage-flagged
events whose `startTime` lies in `[weekStart, weekStart + 7 days)`; after the
backend `updateWeeklyDemurrage` the row stores the `Math.round` of that sum
(backend durations are fractional minutes) and the exact count. -/
theorem weekly_totals_recalculation
    (db : Client.ClientDB) (w freshId : ℕ) (r : Client.WeeklyDemurrage)
    (bdb : Backend.BackendDB) (c d : ℕ) (r2 : Backend.WeeklyRow)
    (hw : IsWeekStart w)
    (htags : ∀ e ∈ db.stopEvents, e.weekStartDate = weekStart e.startTime)
    (hex : ∃ r0 ∈ db.weeklyDemurrage, r0.weekStartDate = w)
    (hr : r ∈ (Client.recalculateWeeklyDemurrage db w freshId).2.weeklyDemurrage)
    (hrw : r.weekStartDate = w)
    (hwf : ∀ r0 ∈ bdb.weeklyDemurrage, r0.id < bdb.nextWeeklyId)
    (huq : bdb.weeklyDemurrage.Pairwise (fun a b =>
      ¬(a.companyId = b.companyId ∧ a.weekStartDate = b.weekStartDate)))
    (hr2 : r2 ∈ (Backend.updateWeeklyDemurrage bdb c d).weeklyDemurrage)
    (hr2c : r2.companyId = c) (hr2w : r2.weekStartDate = weekStart d) :
    r.totalDemurrageMinutes = ((db.stopEvents.filter (fun e =>
        e.isDemurrage && decide (w ≤ e.startTime)
          && decide (e.startTime < w + 7 * DAY_MS))).map
        (fun e => e.durationMinutes)).sum ∧
    r.eventCount = (db.stopEvents.filter (fun e =>
        e.isDemurrage && decide (w ≤ e.startTime)
          && decide (e.startTime < w + 7 * DAY_MS))).length ∧
    r2.totalMinutes = Backend.jsRound (((bdb.stopEvents.filter (fun e =>
        e.companyId == c && e.isDemurrage && decide (weekStart d ≤ e.startTime)
          && decide (e.startTime < weekStart d + 7 * DAY_MS))).map
        (fun e => e.durationMinutes.getD 0)).sum) ∧
    r2.eventCount = (bdb.stopEvents.filter (fun e =>
        e.companyId == c && e.isDemurrage && decide (weekStart d ≤ e.startTime)
          && decide (e.startTime < weekStart d + 7 * DAY_MS))).length := by
  have h7 : WEEK_MS = 7 * DAY_MS := by norm_num [WEEK_MS, DAY_MS]
  have hfil : db.stopEvents.filter (fun e => e.weekStartDate == w && e.isDemurrage)
      = db.stopEvents.filter (fun e =>
          e.isDemurrage && decide (w ≤ e.startTime)
            && decide (e.startTime < w + 7 * DAY_MS)) := by
    apply List.filter_congr
    intro e he
    have ht := htags e he
    have hiff := weekStart_eq_iff w e.startTime hw
    rw [h7] at hiff
    rw [Bool.eq_iff_iff]
    simp only [Bool.and_eq_true, beq_iff_eq, decide_eq_true_eq, ht, hiff]
    constructor
    · rintro ⟨⟨h1, h2⟩, h3⟩
      exact ⟨⟨h3, h1⟩, h2⟩
    · rintro ⟨⟨h1, h2⟩, h3⟩
      exact ⟨⟨h2, h3⟩, h1⟩
  have hclient : r.totalDemurrageMinutes = ((db.stopEvents.filter (fun e =>
        e.isDemurrage && decide (w ≤ e.startTime)
          && decide (e.startTime < w + 7 * DAY_MS))).map
        (fun e => e.durationMinutes)).sum ∧
      r.eventCount = (db.stopEvents.filter (fun e =>
        e.isDemurrage && decide (w ≤ e.startTime)
          && decide (e.startTime < w + 7 * DAY_MS))).length := by
    rw [← hfil]
    simp only [Client.recalculateWeeklyDemurrage, Client.getDemurrageEventsByWeek] at hr
    obtain ⟨r0, hr0, hr0w⟩ := hex
    have hmem1 : ∃ x ∈ (Client.updateWeeklyDemurrage db w
        ((db.stopEvents.filter (fun e => e.weekStartDate == w && e.isDemurrage)).map
          (fun e => e.durationMinutes)).sum
        (db.stopEvents.filter (fun e => e.weekStartDate == w && e.isDemurrage)).length).weeklyDemurrage,
        (x.weekStartDate == w) = true := by
      simp only [Client.updateWeeklyDemurrage]
      refine ⟨_, List.mem_map_of_mem _ hr0, ?_⟩
      by_cases hm : (r0.weekStartDate == w) = true
      · simp only [hm, if_true]
      · simp only [hm, if_false]
        simpa using hr0w
    have hsome := (List.find?_isSome).mpr hmem1
    cases hfind : (Client.updateWeeklyDemurrage db w
        ((db.stopEvents.filter (fun e => e.weekStartDate == w && e.isDemurrage)).map
          (fun e => e.durationMinutes)).sum
        (db.stopEvents.filter (fun e => e.weekStartDate == w && e.isDemurrage)).length).weeklyDemurrage.find?
        (fun x => x.weekStartDate == w) with
    | none => rw [hfind] at hsome; cases hsome
    | some rf =>
      simp only [Client.getOrCreateWeeklyDemurrage, hfind] at hr
      simp only [Client.updateWeeklyDemurrage] at hr
      rcases List.mem_map.mp hr with ⟨r1, hr1, hgr⟩
      by_cases hmatch : (r1.weekStartDate == w) = true
      · rw [if_pos hmatch] at hgr
        rw [← hgr]
        exact ⟨rfl, rfl⟩
      · rw [if_neg hmatch] at hgr
        rw [← hgr] at hrw
        exact absurd (by simpa using hrw) hmatch
  refine ⟨hclient.1, hclient.2, ?_⟩
  simp only [Backend.updateWeeklyDemurrage] at hr2
  cases hbfind : List.find?
      (fun x => x.companyId == c && x.weekStartDate == weekStart d) bdb.weeklyDemurrage with
  | some w0 =>
    have hw0p := List.find?_some hbfind
    have hw0mem := List.mem_of_find?_eq_some hbfind
    obtain ⟨hc0, hw0w⟩ : w0.companyId = c ∧ w0.weekStartDate = weekStart d := by
      simpa using hw0p
    simp only [Backend.getOrCreateWeeklyDemurrage, hbfind] at hr2
    simp only [Backend.getDemurrageEventsByWeek, hw0w] at hr2
    rcases List.mem_map.mp hr2 with ⟨x, hx, hgx⟩
    by_cases hid : (x.id == w0.id) = true
    · rw [if_pos hid] at hgx
      rw [← hgx]
      exact ⟨rfl, rfl⟩
    · rw [if_neg hid] at hgx
      have hxw : x.companyId = c ∧ x.weekStartDate = weekStart d := by
        rw [hgx]; exact ⟨hr2c, hr2w⟩
      have : x = w0 := eq_of_mem_of_pairwise_rel huq hx hw0mem
        (fun hcontra => hcontra ⟨hxw.1.trans hc0.symm, hxw.2.trans hw0w.symm⟩)
        (fun hcontra => hcontra ⟨hc0.trans hxw.1.symm, hw0w.trans hxw.2.symm⟩)
      rw [this] at hid
      simp at hid
  | none =>
    have hnone := List.find?_eq_none.mp hbfind
    simp only [Backend.getOrCreateWeeklyDemurrage, hbfind] at hr2
    simp only [Backend.getDemurrageEventsByWeek] at hr2
    rcases List.mem_map.mp hr2 with ⟨x, hx, hgx⟩
    rcases List.mem_append.mp hx with hxold | hxnew
    · by_cases hid : (x.id == bdb.nextWeeklyId) = true
      · have := hwf x hxold
        rw [beq_iff_eq] at hid
        omega
      · rw [if_neg hid] at hgx
        have hxc : (x.companyId == c && x.weekStartDate == weekStart d) = true := by
          rw [hgx]
          simp [hr2c, hr2w]
        exact absurd hxc (hnone x hxold)
    · have hxeq := List.mem_singleton.mp hxnew
      rw [hxeq] at hgx
      rw [if_pos (by simp)] at hgx
      rw [← hgx]
      exact ⟨rfl, rfl⟩

/-- Claim C2 witness: with the weekly record present, recalculation stores 51
minutes for the one 51-minute demurrage event; the backend row of an event-free
week stores a zero count. -/
theorem weekly_totals_recalculation_witness :
    (51 : ℕ) = ((sampleWeeklyDB.stopEvents.filter (fun e =>
        e.isDemurrage && decide ((259200000 : ℕ) ≤ e.startTime)
          && decide (e.startTime < 259200000 + 7 * DAY_MS))).map
        (fun e => e.durationMinutes)).sum ∧
    (0 : ℕ) = (sampleBackendWeeklyDB.stopEvents.filter (fun e =>
        e.companyId == 1 && e.isDemurrage && decide (weekStart 259200000 ≤ e.startTime)
          && decide (e.startTime < weekStart 259200000 + 7 * DAY_MS))).length := by
  have hj : Backend.jsRound 0 = 0 := by
    unfold Backend.jsRound
    norm_num
  have hr2 : sampleBackendWeeklyRowUpdated
      ∈ (Backend.updateWeeklyDemurrage sampleBackendWeeklyDB 1 259200000).weeklyDemurrage := by
    simp [Backend.updateWeeklyDemurrage, Backend.getOrCreateWeeklyDemurrage,
      Backend.getDemurrageEventsByWeek, sampleBackendWeeklyDB, sampleBackendWeeklyRow,
      sampleBackendWeeklyRowUpdated, weekStart, DAY_MS, WEEK_MS, hj]
  have h := weekly_totals_recalculation sampleWeeklyDB 259200000 7
    sampleWeeklyRecordUpdated sampleBackendWeeklyDB 1 259200000
    sampleBackendWeeklyRowUpdated
    (by decide) (by decide) (by decide) (by decide) (by decide) (by decide) (by decide)
    hr2 (by decide) (by decide)
  exact ⟨h.1, h.2.2.2⟩

namespace Client

theorem pairwise_ids_map_update (l : List StopEvent) (k : ℕ) (ev : StopEvent)
    (hk : ev.id = k)
    (h : l.Pairwise (fun a b => a.id ≠ b.id)) :
    (l.map (fun e => if e.id == k then ev else e)).Pairwise
      (fun a b => a.id ≠ b.id) := by
  refine List.Pairwise.map _ ?_ h
  intro a b hab
  by_cases ha : (a.id == k) = true <;> by_cases hb : (b.id == k) = true <;>
    simp only [ha, hb, if_true, if_false]
  · exact absurd ((beq_iff_eq.mp ha).trans (beq_iff_eq.mp hb).symm) hab
  · intro hc
    exact hab (((beq_iff_eq.mp ha).trans hk.symm).trans hc)
  · intro hc
    exact hab ((hc.trans hk).trans (beq_iff_eq.mp hb).symm)
  · exact hab

theorem clientInv_start (st : TrackingState) (e w now : ℕ) (loc : Option Location)
    (reason : Option StopReason) (hinv : ClientInv st)
    (hcur : st.currentStopEvent = none) :
    ClientInv (startStopEvent st e w now loc reason) := by
  obtain ⟨hpw, hnone, hsome⟩ := hinv
  cases hset : getSettings st.db with
  | error u => simpa only [startStopEvent, hset] using ⟨hpw, hnone, hsome⟩
  | ok s =>
    simp only [startStopEvent, hset]
    unfold ClientInv
    simp only [getOrCreateWeeklyDemurrage_stopEvents]
    by_cases hexists : (st.db.stopEvents.any (fun x => x.id == e)) = true
    · simp only [saveStopEvent, hexists, eq_self_iff_true, if_true]
      refine ⟨pairwise_ids_map_update _ _ _ rfl hpw, ?_, ?_⟩
      · intro habs
        exact Option.noConfusion habs
      · intro cur hc
        rw [Option.some.injEq] at hc
        refine ⟨by rw [← hc], ?_⟩
        intro x hx hxopen
        rcases List.mem_map.mp hx with ⟨x0, hx0, hgx⟩
        by_cases hid : (x0.id == e) = true
        · rw [if_pos hid] at hgx
          rw [← hgx, ← hc]
        · rw [if_neg hid] at hgx
          rw [← hgx] at hxopen
          exact absurd hxopen (hnone hcur x0 hx0)
    · simp only [saveStopEvent, hexists, Bool.false_eq_true, if_false]
      have hfresh : ∀ x ∈ st.db.stopEvents, ¬(x.id == e) = true := by
        intro x hx
        intro hbeq
        have : st.db.stopEvents.any (fun y => y.id == e) = true :=
          List.any_eq_true.mpr ⟨x, hx, hbeq⟩
        exact hexists this
      refine ⟨?_, ?_, ?_⟩
      · rw [List.pairwise_append]
        refine ⟨hpw, List.pairwise_singleton _ _, ?_⟩
        intro a ha b hb
        rw [List.mem_singleton.mp hb]
        intro hc
        exact hfresh a ha (beq_iff_eq.mpr hc)
      · intro habs
        exact Option.noConfusion habs
      · intro cur hc
        rw [Option.some.injEq] at hc
        refine ⟨by rw [← hc], ?_⟩
        intro x hx hxopen
        rcases List.mem_append.mp hx with hxl | hxr
        · exact absurd hxopen (hnone hcur x hxl)
        · rw [List.mem_singleton.mp hxr, ← hc]

theorem clientInv_close (st : TrackingState) (w now : ℕ) (loc : Option Location)
    (hinv : ClientInv st) : ClientInv (endStopEvent st w now loc) := by
  obtain ⟨hpw, hnone, hsome⟩ := hinv
  cases hc : st.currentStopEvent with
  | none => simpa only [endStopEvent, hc] using ⟨hpw, hnone, hsome⟩
  | some cur =>
    cases hset : getSettings st.db with
    | error u => simpa only [endStopEvent, hc, hset] using ⟨hpw, hnone, hsome⟩
    | ok s =>
      obtain ⟨hopen, hall⟩ := hsome cur hc
      simp only [endStopEvent, hc, hset]
      unfold ClientInv
      have hse : ∀ db2 : ClientDB, ∀ flag : Bool,
          (if flag = true then (recalculateWeeklyDemurrage db2 cur.weekStartDate w).2
           else db2).stopEvents = db2.stopEvents := by
        intro db2 flag
        split
        · exact recalculateWeeklyDemurrage_stopEvents ..
        · rfl
      refine ⟨?_, ?_, ?_⟩
      · simp only [hse, updateStopEvent]
        exact pairwise_ids_map_update _ _ _ rfl hpw
      · intro _
        simp only [hse, updateStopEvent]
        intro x hx
        rcases List.mem_map.mp hx with ⟨x0, hx0, hgx⟩
        by_cases hid : (x0.id == cur.id) = true
        · rw [if_pos hid] at hgx
          rw [← hgx]
          simp
        · rw [if_neg hid] at hgx
          rw [← hgx]
          intro hxopen
          exact hid (beq_iff_eq.mpr (hall x0 hx0 hxopen))
      · intro cur2 habs
        exact Option.noConfusion habs

theorem clientInv_refresh (st : TrackingState) (w now : ℕ) (hinv : ClientInv st) :
    ClientInv (updateCurrentStopDuration st w now) := by
  obtain ⟨hpw, hnone, hsome⟩ := hinv
  cases hc : st.currentStopEvent with
  | none => simpa only [updateCurrentStopDuration, hc] using ⟨hpw, hnone, hsome⟩
  | some cur =>
    cases hset : getSettings st.db with
    | error u =>
      simpa only [updateCurrentStopDuration, hc, hset] using ⟨hpw, hnone, hsome⟩
    | ok s =>
      obtain ⟨hopen, hall⟩ := hsome cur hc
      simp only [updateCurrentStopDuration, hc, hset]
      unfold ClientInv
      have hse : ∀ db2 : ClientDB, ∀ flag : Bool,
          (if flag = true then (recalculateWeeklyDemurrage db2 cur.weekStartDate w).2
           else db2).stopEvents = db2.stopEvents := by
        intro db2 flag
        split
        · exact recalculateWeeklyDemurrage_stopEvents ..
        · rfl
      refine ⟨?_, ?_, ?_⟩
      · simp only [hse, updateStopEvent]
        exact pairwise_ids_map_update _ _ _ rfl hpw
      · intro habs
        exact Option.noConfusion habs
      · intro cur2 hc2
        rw [Option.some.injEq] at hc2
        refine ⟨by rw [← hc2]; exact hopen, ?_⟩
        simp only [hse, updateStopEvent]
        intro x hx hxopen
        rcases List.mem_map.mp hx with ⟨x0, hx0, hgx⟩
        by_cases hid : (x0.id == cur.id) = true
        · rw [if_pos hid] at hgx
          rw [← hgx, ← hc2]
        · rw [if_neg hid] at hgx
          rw [← hgx] at hxopen
          exact absurd (beq_iff_eq.mpr (hall x0 hx0 hxopen)) hid

theorem clientInv_photos (st : TrackingState) (p : List String) (n : String)
    (hinv : ClientInv st) : ClientInv (updateCurrentStopPhotosNotes st p n) := by
  obtain ⟨hpw, hnone, hsome⟩ := hinv
  cases hc : st.currentStopEvent with
  | none => simpa only [updateCurrentStopPhotosNotes, hc] using ⟨hpw, hnone, hsome⟩
  | some cur =>
    obtain ⟨hopen, hall⟩ := hsome cur hc
    simp only [updateCurrentStopPhotosNotes, hc]
    unfold ClientInv
    refine ⟨?_, ?_, ?_⟩
    · simp only [updateStopEvent]
      exact pairwise_ids_map_update _ _ _ rfl hpw
    · intro habs
      exact Option.noConfusion habs
    · intro cur2 hc2
      rw [Option.some.injEq] at hc2
      refine ⟨by rw [← hc2]; exact hopen, ?_⟩
      simp only [updateStopEvent]
      intro x hx hxopen
      rcases List.mem_map.mp hx with ⟨x0, hx0, hgx⟩
      by_cases hid : (x0.id == cur.id) = true
      · rw [if_pos hid] at hgx
        rw [← hgx, ← hc2]
      · rw [if_neg hid] at hgx
        rw [← hgx] at hxopen
        exact absurd (beq_iff_eq.mpr (hall x0 hx0 hxopen)) hid

theorem clientInv_motion (st : TrackingState) (m : Bool) (e w now : ℕ)
    (loc : Option Location) (reason : Option StopReason) (hinv : ClientInv st) :
    ClientInv (handleMotionChange st m e w now loc reason) := by
  by_cases h1 : m = false ∧ st.currentStopEvent = none
  · rw [handleMotionChange, if_pos h1]
    exact clientInv_start st e w now loc reason hinv h1.2
  · by_cases h2 : m = true ∧ st.currentStopEvent ≠ none
    · rw [handleMotionChange, if_neg h1, if_pos h2]
      exact clientInv_close st w now loc hinv
    · rw [handleMotionChange, if_neg h1, if_neg h2]
      exact hinv

theorem clientInv_run (ops : List ClientOp) (st : TrackingState) (hinv : ClientInv st) :
    ClientInv (runClient ops st) := by
  induction ops generalizing st with
  | nil => exact hinv
  | cons op tl ih =>
    refine ih (applyOp st op) ?_
    cases op with
    | motion m e w now loc r => exact clientInv_motion st m e w now loc r hinv
    | refresh w now => exact clientInv_refresh st w now hinv
    | photosNotes p n => exact clientInv_photos st p n hinv

theorem clientInv_empty (slot : SettingsSlot) : ClientInv (emptyState slot) := by
  refine ⟨List.Pairwise.nil, ?_, ?_⟩
  · intro _ x hx
    cases hx
  · intro cur habs
    exact Option.noConfusion habs

theorem openEvents_length_le_one (st : TrackingState) (hinv : ClientInv st) :
    (openEvents st.db).length ≤ 1 := by
  obtain ⟨hpw, hnone, hsome⟩ := hinv
  have hpwf : (openEvents st.db).Pairwise (fun a b => a.id ≠ b.id) :=
    hpw.sublist (List.filter_sublist _)
  cases hc : st.currentStopEvent with
  | none =>
    have : openEvents st.db = [] := by
      rw [openEvents, List.filter_eq_nil_iff]
      intro x hx
      simpa using hnone hc x hx
    rw [this]
    simp
  | some cur =>
    obtain ⟨hopen, hall⟩ := hsome cur hc
    cases hfo : openEvents st.db with
    | nil => simp
    | cons a tl =>
      cases tl with
      | nil => simp
      | cons b tl2 =>
        exfalso
        rw [hfo] at hpwf
        have hab : a.id ≠ b.id := (List.pairwise_cons.mp hpwf).1 b (by simp)
        have ha : a ∈ openEvents st.db := by rw [hfo]; simp
        have hb : b ∈ openEvents st.db := by rw [hfo]; simp
        rw [openEvents, List.mem_filter] at ha hb
        have ha2 : a.id = cur.id := hall a ha.1 (by simpa using ha.2)
        have hb2 : b.id = cur.id := hall b hb.1 (by simpa using hb.2)
        exact hab (ha2.trans hb2.symm)

end Client

namespace Backend

theorem updateWeeklyDemurrage_stopEvents (db : BackendDB) (c d : ℕ) :
    (updateWeeklyDemurrage db c d).stopEvents = db.stopEvents := by
  unfold updateWeeklyDemurrage
  simp only [getOrCreateWeekly_keeps_stopEvents]

theorem backendInv_start (db : BackendDB) (c u0 : ℕ) (location : Option Location)
    (session : Option UserSession) (reason : Option String) (now u : ℕ)
    (h : (openEventsFor db u).length ≤ 1) :
    (openEventsFor (startTrackingRoute db c u0 location session reason now).2 u).length ≤ 1 := by
  cases location with
  | none => simpa only [startTrackingRoute] using h
  | some loc =>
    cases hact : getActiveStopEvent db u0 with
    | some r => simpa only [startTrackingRoute, hact] using h
    | none =>
      cases session with
      | none => simpa only [startTrackingRoute, hact] using h
      | some sess =>
        simp only [startTrackingRoute, hact, createStopEvent]
        rw [openEventsFor] at h ⊢
        simp only [List.filter_append]
        by_cases hu : u0 = u
        · have hempty : db.stopEvents.filter (fun r => r.userId == u && r.endTime == none)
              = [] := by
            rw [getActiveStopEvent] at hact
            rw [← hu]
            exact List.head?_eq_none_iff.mp hact
          rw [hempty]
          simp [hu]
        · have : (List.filter (fun r => r.userId == u && r.endTime == none)
              [({ id := db.nextEventId, companyId := c, userId := u0, sessionId := sess.id,
                  truckRego := sess.truckRego, trailerRego := sess.trailerRego,
                  startTime := now, endTime := none,
                  startLatitude := loc.latitude, startLongitude := loc.longitude,
                  startAddress := loc.address, endLatitude := none, endLongitude := none,
                  endAddress := none, durationMinutes := none, isDemurrage := false,
                  reason := reason, notes := none, photos := none } : StopEventRow)]) = [] := by
            simp [hu]
          rw [this]
          simpa using h

theorem backendInv_stop (db : BackendDB) (eventId : ℕ) (loc : Location) (thr : ℚ)
    (now u : ℕ) (h : (openEventsFor db u).length ≤ 1) :
    (openEventsFor (endStopEvent db eventId loc thr now).2 u).length ≤ 1 := by
  cases hfind : db.stopEvents.find? (fun r => r.id == eventId) with
  | none => simpa only [endStopEvent, hfind] using h
  | some row =>
    simp only [endStopEvent, hfind]
    have hse : ∀ db1 : BackendDB, ∀ flag : Bool,
        (if flag = true then updateWeeklyDemurrage db1 row.companyId row.startTime
         else db1).stopEvents = db1.stopEvents := by
      intro db1 flag
      split
      · exact updateWeeklyDemurrage_stopEvents ..
      · rfl
    rw [openEventsFor]
    simp only [hse]
    rw [List.filter_map]
    rw [List.length_map]
    simp only [Function.comp_def]
    calc (db.stopEvents.filter (fun r =>
            ((if r.id == eventId then closeRow loc thr now r else r).userId == u
              && (if r.id == eventId then closeRow loc thr now r else r).endTime == none))).length
        ≤ (db.stopEvents.filter (fun r => r.userId == u && r.endTime == none)).length := by
          apply List.Sublist.length_le
          apply List.monotone_filter_right
          intro r hr
          by_cases hid : (r.id == eventId) = true
          · rw [if_pos hid] at hr
            simp [closeRow] at hr
          · rw [if_neg hid] at hr
            exact hr
      _ ≤ 1 := h

theorem backendInv_details (db : BackendDB) (eventId : ℕ) (notes : Option String)
    (photos : Option (List String)) (u : ℕ) (h : (openEventsFor db u).length ≤ 1) :
    (openEventsFor (updateStopEventDetails db eventId notes photos).2 u).length ≤ 1 := by
  cases hfind : db.stopEvents.find? (fun r => r.id == eventId) with
  | none => simpa only [updateStopEventDetails, hfind] using h
  | some row =>
    simp only [updateStopEventDetails, hfind]
    rw [openEventsFor]
    rw [List.filter_map, List.length_map]
    simp only [Function.comp_def]
    have : db.stopEvents.filter (fun r =>
        ((if r.id == eventId then patchRow notes photos r else r).userId == u
          && (if r.id == eventId then patchRow notes photos r else r).endTime == none))
        = db.stopEvents.filter (fun r => r.userId == u && r.endTime == none) := by
      apply List.filter_congr
      intro r _
      by_cases hid : (r.id == eventId) = true
      · rw [if_pos hid]
        rfl
      · rw [if_neg hid]
    rw [this]
    exact h

theorem backendInv_run (ops : List BackendOp) (db : BackendDB) (u : ℕ)
    (h : (openEventsFor db u).length ≤ 1) :
    (openEventsFor (runBackend ops db) u).length ≤ 1 := by
  induction ops generalizing db with
  | nil => exact h
  | cons op tl ih =>
    refine ih (applyBackendOp db op) ?_
    cases op with
    | start c u0 loc sess r now => exact backendInv_start db c u0 loc sess r now u h
    | stop e loc thr now => exact backendInv_stop db e loc thr now u h
    | details e n p => exact backendInv_details db e n p u h

end Backend

/-- Claim C3: in every reachable state — any sequence of stop-event creations
and closings on the client coordinator, or any sequence of requests through
the backend tracking service — there is at most one open stop event
(`endTime = null`) per user/session at a time.  The backend route handler for
`POST /api/tracking/start` (in the concatenated backend sources, tracking
routes section) rejects the request when `getActiveStopEvent` finds a stop
event already in progress or when the user has no active session, and only
then calls `createStopEvent`; the client coordinator's `startStopEvent` opens
unconditionally but every path that opens first closes any current event. -/
theorem at_most_one_open_stop_event (ops : List Client.ClientOp)
    (slot : Client.SettingsSlot) (bops : List Backend.BackendOp) (userId : ℕ) :
    (Client.openEvents (Client.runClient ops (Client.emptyState slot)).db).length ≤ 1 ∧
    (Backend.openEventsFor (Backend.runBackend bops Backend.emptyBackendDB) userId).length ≤ 1 := by
  constructor
  · exact Client.openEvents_length_le_one _
      (Client.clientInv_run ops (Client.emptyState slot) (Client.clientInv_empty slot))
  · refine Backend.backendInv_run bops Backend.emptyBackendDB userId ?_
    simp [Backend.openEventsFor, Backend.emptyBackendDB]

namespace Motion

theorem runMotion_append (es : List MEvent) (e : MEvent) :
    runMotion (es ++ [e])
      = ((stepMotion (runMotion es).1 e).1,
         (runMotion es).2 ++ (stepMotion (runMotion es).1 e).2.toList) := by
  unfold runMotion
  rw [List.foldl_append]
  rfl

theorem processMotionData_buffers (s : MotionSt) (t : ℕ) (a v : ℚ) :
    (processMotionData s t a v).1.accelerationBuffer = addToBuffer s.accelerationBuffer a ∧
    (processMotionData s t a v).1.speedBuffer = addToBuffer s.speedBuffer v := by
  unfold processMotionData
  constructor <;> (dsimp only; repeat' split) <;> rfl

theorem processMotionData_isMoving (s : MotionSt) (t : ℕ) (a v : ℚ) :
    (processMotionData s t a v).1.isMoving = s.isMoving := by
  unfold processMotionData
  dsimp only
  repeat' split
  all_goals rfl

theorem fireStopTimer_buffers (s : MotionSt) (t : ℕ) :
    (fireStopTimer s t).1.accelerationBuffer = s.accelerationBuffer ∧
    (fireStopTimer s t).1.speedBuffer = s.speedBuffer := by
  unfold fireStopTimer
  constructor <;> (repeat' split) <;> rfl

theorem fireMoveTimer_buffers (s : MotionSt) (t : ℕ) :
    (fireMoveTimer s t).1.accelerationBuffer = s.accelerationBuffer ∧
    (fireMoveTimer s t).1.speedBuffer = s.speedBuffer := by
  unfold fireMoveTimer
  constructor <;> (repeat' split) <;> rfl

theorem addToBuffer_lastN (l : List ℚ) (x : ℚ) :
    addToBuffer (lastN 10 l) x = lastN 10 (l ++ [x]) := by
  unfold addToBuffer lastN BUFFER_SIZE
  have hlen : (l.drop (l.length - 10)).length = l.length - (l.length - 10) :=
    List.length_drop ..
  by_cases hn : l.length ≤ 9
  · have h0 : l.length - 10 = 0 := by omega
    have h1 : (l ++ [x]).length - 10 = 0 := by
      rw [List.length_append]
      simp only [List.length_singleton]
      omega
    rw [h0, h1, List.drop_zero, List.drop_zero]
    rw [if_neg]
    rw [List.length_append]
    simp only [List.drop_zero, List.length_singleton]
    omega
  · have h10 : 10 ≤ l.length := by omega
    have hlen2 : (l.drop (l.length - 10) ++ [x]).length = 11 := by
      rw [List.length_append, hlen]
      simp only [List.length_singleton]
      omega
    rw [if_pos (by rw [hlen2]; omega)]
    have hne : l.drop (l.length - 10) ≠ [] := by
      intro hcon
      have := congrArg List.length hcon
      rw [hlen] at this
      simp at this
      omega
    rw [List.tail_append_of_ne_nil hne]
    rw [List.tail_drop]
    have harith : (l ++ [x]).length - 10 = l.length - 10 + 1 := by
      rw [List.length_append]
      simp only [List.length_singleton]
      omega
    rw [harith]
    rw [List.drop_append_of_le_length (by omega)]

theorem runMotion_buffers (es : List MEvent) :
    (runMotion es).1.accelerationBuffer = lastN 10 (accInputs es) ∧
    (runMotion es).1.speedBuffer = lastN 10 (speedInputs es) := by
  induction es using List.reverseRecOn with
  | nil => exact ⟨rfl, rfl⟩
  | append_singleton es e ih =>
    rw [runMotion_append]
    cases e with
    | sample t a v =>
      have hb := processMotionData_buffers (runMotion es).1 t a v
      have hacc : accInputs (es ++ [MEvent.sample t a v]) = accInputs es ++ [a] := by
        simp [accInputs]
      have hspd : speedInputs (es ++ [MEvent.sample t a v]) = speedInputs es ++ [v] := by
        simp [speedInputs]
      constructor
      · show (processMotionData (runMotion es).1 t a v).1.accelerationBuffer = _
        rw [hb.1, ih.1, addToBuffer_lastN, hacc]
      · show (processMotionData (runMotion es).1 t a v).1.speedBuffer = _
        rw [hb.2, ih.2, addToBuffer_lastN, hspd]
    | fireStop t =>
      have hb := fireStopTimer_buffers (runMotion es).1 t
      have hacc : accInputs (es ++ [MEvent.fireStop t]) = accInputs es := by
        simp [accInputs]
      have hspd : speedInputs (es ++ [MEvent.fireStop t]) = speedInputs es := by
        simp [speedInputs]
      exact ⟨by rw [show (stepMotion (runMotion es).1 (MEvent.fireStop t)).1
          = (fireStopTimer (runMotion es).1 t).1 from rfl, hb.1, ih.1, hacc],
        by rw [show (stepMotion (runMotion es).1 (MEvent.fireStop t)).1
          = (fireStopTimer (runMotion es).1 t).1 from rfl, hb.2, ih.2, hspd]⟩
    | fireMove t =>
      have hb := fireMoveTimer_buffers (runMotion es).1 t
      have hacc : accInputs (es ++ [MEvent.fireMove t]) = accInputs es := by
        simp [accInputs]
      have hspd : speedInputs (es ++ [MEvent.fireMove t]) = speedInputs es := by
        simp [speedInputs]
      exact ⟨by rw [show (stepMotion (runMotion es).1 (MEvent.fireMove t)).1
          = (fireMoveTimer (runMotion es).1 t).1 from rfl, hb.1, ih.1, hacc],
        by rw [show (stepMotion (runMotion es).1 (MEvent.fireMove t)).1
          = (fireMoveTimer (runMotion es).1 t).1 from rfl, hb.2, ih.2, hspd]⟩

end Motion

/-- Claim C6: the classifier's raw moving decision for each sample is true iff
the trailing average of the last at-most-10 acceleration deviations exceeds
the fixed acceleration threshold 0.15 OR the trailing average of the last
at-most-10 speeds exceeds the fixed speed threshold 1.5 m/s; each smoothing
buffer holds exactly the trailing window of at most 10 samples, and the
average is over exactly the samples it holds. -/
theorem smoothing_buffers_and_decision (es : List Motion.MEvent) (t : ℕ) (a v : ℚ) :
    (Motion.runMotion es).1.accelerationBuffer = Motion.lastN 10 (Motion.accInputs es) ∧
    (Motion.runMotion es).1.speedBuffer = Motion.lastN 10 (Motion.speedInputs es) ∧
    (Motion.runMotion es).1.accelerationBuffer.length ≤ 10 ∧
    (Motion.runMotion es).1.speedBuffer.length ≤ 10 ∧
    (Motion.runMotion (es ++ [Motion.MEvent.sample t a v])).2 = (Motion.runMotion es).2 ++
      [Motion.LogEntry.sample t
        (decide (Motion.bufferAverage (Motion.lastN 10 (Motion.accInputs es ++ [a]))
            > Motion.MOTION_THRESHOLD)
          || decide (Motion.bufferAverage (Motion.lastN 10 (Motion.speedInputs es ++ [v]))
            > Motion.SPEED_THRESHOLD))] := by
  obtain ⟨hacc, hspd⟩ := Motion.runMotion_buffers es
  have hlacc : (Motion.lastN 10 (Motion.accInputs es)).length ≤ 10 := by
    unfold Motion.lastN
    rw [List.length_drop]
    omega
  have hlspd : (Motion.lastN 10 (Motion.speedInputs es)).length ≤ 10 := by
    unfold Motion.lastN
    rw [List.length_drop]
    omega
  refine ⟨hacc, hspd, by rw [hacc]; exact hlacc, by rw [hspd]; exact hlspd, ?_⟩
  rw [Motion.runMotion_append]
  have h2 : (Motion.stepMotion (Motion.runMotion es).1 (Motion.MEvent.sample t a v)).2
      = some (Motion.LogEntry.sample t
        (decide (Motion.bufferAverage
            (Motion.addToBuffer (Motion.runMotion es).1.accelerationBuffer a)
          > Motion.MOTION_THRESHOLD)
          || decide (Motion.bufferAverage
              (Motion.addToBuffer (Motion.runMotion es).1.speedBuffer v)
            > Motion.SPEED_THRESHOLD))) := rfl
  rw [h2, hacc, hspd, Motion.addToBuffer_lastN, Motion.addToBuffer_lastN]
  rfl

namespace Motion

theorem motionInv_step (s : MotionSt) (log : List LogEntry) (e : MEvent)
    (h : MotionInv log s) :
    MotionInv (log ++ (stepMotion s e).2.toList) (stepMotion s e).1 := by
  obtain ⟨h1, h2, h3⟩ := h
  cases e with
  | sample t a v =>
    show MotionInv (log ++ [(processMotionData s t a v).2]) (processMotionData s t a v).1
    unfold processMotionData
    dsimp only
    cases hm : s.isMoving <;>
      cases hcv : (decide (bufferAverage (addToBuffer s.accelerationBuffer a)
          > MOTION_THRESHOLD)
        || decide (bufferAverage (addToBuffer s.speedBuffer v) > SPEED_THRESHOLD)) <;>
      simp only [hm, hcv, Bool.not_false, Bool.not_true, Bool.and_self, Bool.true_and,
        Bool.false_and, Bool.and_false, Bool.and_true, if_true, if_false,
        Bool.false_eq_true, Bool.true_eq_false]
    -- case isMoving = false, decision = false (still stopped)
    · refine ⟨?_, ?_, ?_⟩
      · intro hp
        exact absurd hp (by simp)
      · intro hp
        exact absurd hp (by simp)
      · intro _
        refine ⟨?_, rfl⟩
        rcases hp : s.pending with _ | p
        · exact (h3 hp).1
        · cases p with
          | stopped =>
            have := (h1 hp).1
            rw [hm] at this
            cases this
          | moving => exact (h2 hp).2.1
    -- case isMoving = false, decision = true (potentially moving)
    · by_cases hp : s.pending = some Pending.moving
      · rw [if_pos hp]
        obtain ⟨him, hsd, t0, l1, l2, hmd, hlog, hl2⟩ := h2 hp
        refine ⟨?_, ?_, ?_⟩
        · intro hp2
          rw [hp] at hp2
          exact absurd hp2 (by simp)
        · intro _
          refine ⟨rfl, hsd, t0, l1, l2 ++ [LogEntry.sample t true], hmd, ?_, ?_⟩
          · rw [hlog]
            simp
          · intro en hen
            rcases List.mem_append.mp hen with h | h
            · exact hl2 en h
            · rw [List.mem_singleton.mp h]
              exact ⟨t, rfl⟩
        · intro hp3
          rw [hp] at hp3
          exact absurd hp3 (by simp)
      · rw [if_neg hp]
        refine ⟨?_, ?_, ?_⟩
        · intro hp2
          exact absurd hp2 (by simp)
        · intro _
          refine ⟨rfl, rfl, t, log, [], rfl, rfl, ?_⟩
          intro en hen
          cases hen
        · intro hp3
          exact absurd hp3 (by simp)
    -- case isMoving = true, decision = false (potentially stopping)
    · by_cases hp : s.pending = some Pending.stopped
      · rw [if_pos hp]
        obtain ⟨him, hmd, t0, l1, l2, hsd, hlog, hl2⟩ := h1 hp
        refine ⟨?_, ?_, ?_⟩
        · intro _
          refine ⟨rfl, hmd, t0, l1, l2 ++ [LogEntry.sample t false], hsd, ?_, ?_⟩
          · rw [hlog]
            simp
          · intro en hen
            rcases List.mem_append.mp hen with h | h
            · exact hl2 en h
            · rw [List.mem_singleton.mp h]
              exact ⟨t, rfl⟩
        · intro hp2
          rw [hp] at hp2
          exact absurd hp2 (by simp)
        · intro hp3
          rw [hp] at hp3
          exact absurd hp3 (by simp)
      · rw [if_neg hp]
        refine ⟨?_, ?_, ?_⟩
        · intro _
          refine ⟨rfl, rfl, t, log, [], rfl, rfl, ?_⟩
          intro en hen
          cases hen
        · intro hp2
          exact absurd hp2 (by simp)
        · intro hp3
          exact absurd hp3 (by simp)
    -- case isMoving = true, decision = true (still moving)
    · refine ⟨?_, ?_, ?_⟩
      · intro hp
        exact absurd hp (by simp)
      · intro hp
        exact absurd hp (by simp)
      · intro _
        refine ⟨rfl, ?_⟩
        rcases hp : s.pending with _ | p
        · exact (h3 hp).2
        · cases p with
          | stopped => exact (h1 hp).2.1
          | moving =>
            have := (h2 hp).1
            rw [hm] at this
            cases this
  | fireStop t =>
    show MotionInv (log ++ (fireStopTimer s t).2.toList) (fireStopTimer s t).1
    unfold fireStopTimer
    cases hsd : s.stopDeadline with
    | none =>
      dsimp only
      simp only [Option.toList_none, List.append_nil]
      exact ⟨h1, h2, h3⟩
    | some d =>
      dsimp only
      by_cases hdt : d ≤ t
      · rw [if_pos hdt]
        by_cases hp : s.pending = some Pending.stopped
        · rw [if_pos hp]
          refine ⟨?_, ?_, ?_⟩
          · intro hp2
            exact absurd hp2 (by simp)
          · intro hp2
            exact absurd hp2 (by simp)
          · intro _
            exact ⟨rfl, (h1 hp).2.1⟩
        · rw [if_neg hp]
          dsimp only
          simp only [Option.toList_none, List.append_nil]
          refine ⟨?_, ?_, ?_⟩
          · intro hp2
            exact absurd hp2 hp
          · intro hp2
            have := (h2 hp2).2.1
            rw [hsd] at this
            cases this
          · intro hp3
            have := (h3 hp3).1
            rw [hsd] at this
            cases this
      · rw [if_neg hdt]
        dsimp only
        simp only [Option.toList_none, List.append_nil]
        exact ⟨h1, h2, h3⟩
  | fireMove t =>
    show MotionInv (log ++ (fireMoveTimer s t).2.toList) (fireMoveTimer s t).1
    unfold fireMoveTimer
    cases hmd : s.movementDeadline with
    | none =>
      dsimp only
      simp only [Option.toList_none, List.append_nil]
      exact ⟨h1, h2, h3⟩
    | some d =>
      dsimp only
      by_cases hdt : d ≤ t
      · rw [if_pos hdt]
        by_cases hp : s.pending = some Pending.moving
        · rw [if_pos hp]
          refine ⟨?_, ?_, ?_⟩
          · intro hp2
            exact absurd hp2 (by simp)
          · intro hp2
            exact absurd hp2 (by simp)
          · intro _
            exact ⟨(h2 hp).2.1, rfl⟩
        · rw [if_neg hp]
          dsimp only
          simp only [Option.toList_none, List.append_nil]
          refine ⟨?_, ?_, ?_⟩
          · intro hp2
            have := (h1 hp2).2.2
            obtain ⟨t0, l1, l2, hsd2, _, _⟩ := this
            obtain ⟨_, hmdn, _⟩ := h1 hp2
            rw [hmd] at hmdn
            cases hmdn
          · intro hp2
            exact absurd hp2 hp
          · intro hp3
            have := (h3 hp3).2
            rw [hmd] at this
            cases this
      · rw [if_neg hdt]
        dsimp only
        simp only [Option.toList_none, List.append_nil]
        exact ⟨h1, h2, h3⟩

theorem motionInv_run (events : List MEvent) :
    MotionInv (runMotion events).2 (runMotion events).1 := by
  induction events using List.reverseRecOn with
  | nil =>
    refine ⟨?_, ?_, ?_⟩
    · intro habs
      cases habs
    · intro habs
      cases habs
    · intro _
      exact ⟨rfl, rfl⟩
  | append_singleton es e ih =>
    rw [runMotion_append]
    exact motionInv_step (runMotion es).1 (runMotion es).2 e ih

end Motion

/-- Claim C4: the classifier state never flips from Moving to Stopped unless
the below-threshold condition has held continuously for at least 10 seconds —
the flip happens at a stop-timer firing at some time `t` whose window was armed
by a below-threshold sample at `t0` with `t0 + 10000 ≤ t`, and every sample
logged since `t0` also decided below-threshold (an opposing sample during the
window cancels the pending transition, so none can appear) — and symmetrically
never flips from Stopped to Moving unless the above-threshold condition has
held continuously for at least 5 seconds. -/
theorem motion_debounce_confirmation (es : List Motion.MEvent) (e : Motion.MEvent) :
    ((Motion.runMotion es).1.isMoving = true →
      (Motion.runMotion (es ++ [e])).1.isMoving = false →
      ∃ t, e = Motion.MEvent.fireStop t ∧ ∃ t0 l1 l2,
        (Motion.runMotion es).2 = l1 ++ Motion.LogEntry.sample t0 false :: l2 ∧
        t0 + Motion.STOP_CONFIRMATION_TIME ≤ t ∧
        ∀ en ∈ l2, Motion.SampleStopped en) ∧
    ((Motion.runMotion es).1.isMoving = false →
      (Motion.runMotion (es ++ [e])).1.isMoving = true →
      ∃ t, e = Motion.MEvent.fireMove t ∧ ∃ t0 l1 l2,
        (Motion.runMotion es).2 = l1 ++ Motion.LogEntry.sample t0 true :: l2 ∧
        t0 + Motion.MOVEMENT_CONFIRMATION_TIME ≤ t ∧
        ∀ en ∈ l2, Motion.SampleMoving en) := by
  obtain ⟨h1, h2, h3⟩ := Motion.motionInv_run es
  constructor
  · intro hmov hstop
    rw [Motion.runMotion_append] at hstop
    cases e with
    | sample t a v =>
      rw [show (Motion.stepMotion (Motion.runMotion es).1 (Motion.MEvent.sample t a v)).1
          = (Motion.processMotionData (Motion.runMotion es).1 t a v).1 from rfl,
        Motion.processMotionData_isMoving, hmov] at hstop
      cases hstop
    | fireStop t =>
      rw [show (Motion.stepMotion (Motion.runMotion es).1 (Motion.MEvent.fireStop t)).1
          = (Motion.fireStopTimer (Motion.runMotion es).1 t).1 from rfl] at hstop
      unfold Motion.fireStopTimer at hstop
      cases hsd : (Motion.runMotion es).1.stopDeadline with
      | none =>
        rw [hsd] at hstop
        dsimp only at hstop
        rw [hmov] at hstop
        cases hstop
      | some d =>
        rw [hsd] at hstop
        dsimp only at hstop
        by_cases hdt : d ≤ t
        · rw [if_pos hdt] at hstop
          by_cases hp : (Motion.runMotion es).1.pending = some Motion.Pending.stopped
          · obtain ⟨him, hmd, t0, l1, l2, hsd2, hlog, hl2⟩ := h1 hp
            rw [hsd] at hsd2
            have hd : d = t0 + Motion.STOP_CONFIRMATION_TIME := Option.some_inj.mp hsd2
            exact ⟨t, rfl, t0, l1, l2, hlog, by omega, hl2⟩
          · rw [if_neg hp] at hstop
            dsimp only at hstop
            rw [hmov] at hstop
            cases hstop
        · rw [if_neg hdt] at hstop
          dsimp only at hstop
          rw [hmov] at hstop
          cases hstop
    | fireMove t =>
      rw [show (Motion.stepMotion (Motion.runMotion es).1 (Motion.MEvent.fireMove t)).1
          = (Motion.fireMoveTimer (Motion.runMotion es).1 t).1 from rfl] at hstop
      unfold Motion.fireMoveTimer at hstop
      cases hmd : (Motion.runMotion es).1.movementDeadline with
      | none =>
        rw [hmd] at hstop
        dsimp only at hstop
        rw [hmov] at hstop
        cases hstop
      | some d =>
        rw [hmd] at hstop
        dsimp only at hstop
        by_cases hdt : d ≤ t
        · rw [if_pos hdt] at hstop
          by_cases hp : (Motion.runMotion es).1.pending = some Motion.Pending.moving
          · rw [if_pos hp] at hstop
            dsimp only at hstop
            cases hstop
          · rw [if_neg hp] at hstop
            dsimp only at hstop
            rw [hmov] at hstop
            cases hstop
        · rw [if_neg hdt] at hstop
          dsimp only at hstop
          rw [hmov] at hstop
          cases hstop
  · intro hstill hmoved
    rw [Motion.runMotion_append] at hmoved
    cases e with
    | sample t a v =>
      rw [show (Motion.stepMotion (Motion.runMotion es).1 (Motion.MEvent.sample t a v)).1
          = (Motion.processMotionData (Motion.runMotion es).1 t a v).1 from rfl,
        Motion.processMotionData_isMoving, hstill] at hmoved
      cases hmoved
    | fireStop t =>
      rw [show (Motion.stepMotion (Motion.runMotion es).1 (Motion.MEvent.fireStop t)).1
          = (Motion.fireStopTimer (Motion.runMotion es).1 t).1 from rfl] at hmoved
      unfold Motion.fireStopTimer at hmoved
      cases hsd : (Motion.runMotion es).1.stopDeadline with
      | none =>
        rw [hsd] at hmoved
        dsimp only at hmoved
        rw [hstill] at hmoved
        cases hmoved
      | some d =>
        rw [hsd] at hmoved
        dsimp only at hmoved
        by_cases hdt : d ≤ t
        · rw [if_pos hdt] at hmoved
          by_cases hp : (Motion.runMotion es).1.pending = some Motion.Pending.stopped
          · rw [if_pos hp] at hmoved
            dsimp only at hmoved
            cases hmoved
          · rw [if_neg hp] at hmoved
            dsimp only at hmoved
            rw [hstill] at hmoved
            cases hmoved
        · rw [if_neg hdt] at hmoved
          dsimp only at hmoved
          rw [hstill] at hmoved
          cases hmoved
    | fireMove t =>
      rw [show (Motion.stepMotion (Motion.runMotion es).1 (Motion.MEvent.fireMove t)).1
          = (Motion.fireMoveTimer (Motion.runMotion es).1 t).1 from rfl] at hmoved
      unfold Motion.fireMoveTimer at hmoved
      cases hmd : (Motion.runMotion es).1.movementDeadline with
      | none =>
        rw [hmd] at hmoved
        dsimp only at hmoved
        rw [hstill] at hmoved
        cases hmoved
      | some d =>
        rw [hmd] at hmoved
        dsimp only at hmoved
        by_cases hdt : d ≤ t
        · rw [if_pos hdt] at hmoved
          by_cases hp : (Motion.runMotion es).1.pending = some Motion.Pending.moving
          · obtain ⟨him, hsd2, t0, l1, l2, hmd2, hlog, hl2⟩ := h2 hp
            rw [hmd] at hmd2
            have hd : d = t0 + Motion.MOVEMENT_CONFIRMATION_TIME := Option.some_inj.mp hmd2
            exact ⟨t, rfl, t0, l1, l2, hlog, by omega, hl2⟩
          · rw [if_neg hp] at hmoved
            dsimp only at hmoved
            rw [hstill] at hmoved
            cases hmoved
        · rw [if_neg hdt] at hmoved
          dsimp only at hmoved
          rw [hstill] at hmoved
          cases hmoved

/-- Claim C4 witness: a single below-threshold sample at time 0 followed by
the stop-timer firing at 10000 flips the state, and the theorem exhibits the
10-second confirmation window. -/
theorem motion_debounce_confirmation_witness :
    ∃ t, (Motion.MEvent.fireStop 10000 : Motion.MEvent) = Motion.MEvent.fireStop t ∧
      ∃ t0 l1 l2, (Motion.runMotion [Motion.MEvent.sample 0 0 0]).2
          = l1 ++ Motion.LogEntry.sample t0 false :: l2 ∧
        t0 + Motion.STOP_CONFIRMATION_TIME ≤ t ∧
        ∀ en ∈ l2, Motion.SampleStopped en :=
  (motion_debounce_confirmation [Motion.MEvent.sample 0 0 0]
      (Motion.MEvent.fireStop 10000)).1
    (by
      show (Motion.processMotionData Motion.initialMotionSt 0 0 0).1.isMoving = true
      rw [Motion.processMotionData_isMoving]
      rfl)
    (by
      have hc : (decide (Motion.bufferAverage
            (Motion.addToBuffer Motion.initialMotionSt.accelerationBuffer 0)
          > Motion.MOTION_THRESHOLD)
        || decide (Motion.bufferAverage
            (Motion.addToBuffer Motion.initialMotionSt.speedBuffer 0)
          > Motion.SPEED_THRESHOLD)) = false := by
        norm_num [Motion.addToBuffer, Motion.bufferAverage, Motion.initialMotionSt,
          Motion.MOTION_THRESHOLD, Motion.SPEED_THRESHOLD, Motion.BUFFER_SIZE]
      have hs1 : (Motion.processMotionData Motion.initialMotionSt 0 0 0).1
          = { isMoving := true
              speed := Motion.bufferAverage
                (Motion.addToBuffer Motion.initialMotionSt.speedBuffer 0)
              accelerationBuffer := Motion.addToBuffer
                Motion.initialMotionSt.accelerationBuffer 0
              speedBuffer := Motion.addToBuffer Motion.initialMotionSt.speedBuffer 0
              pending := some Motion.Pending.stopped
              stopDeadline := some (0 + Motion.STOP_CONFIRMATION_TIME)
              movementDeadline := none } := by
        unfold Motion.processMotionData
        dsimp only
        rw [hc]
        norm_num [Motion.initialMotionSt]
        simp
      show (Motion.fireStopTimer
          (Motion.processMotionData Motion.initialMotionSt 0 0 0).1 10000).1.isMoving = false
      rw [hs1]
      unfold Motion.fireStopTimer
      norm_num [Motion.STOP_CONFIRMATION_TIME])

end DemurrageTracker
